import Mathlib

/-!
Verification of the actorus agent-orchestration core against its
natural-language specification.

The Rust sources are shallowly embedded as Lean definitions:

* `src/src/actors/validation.rs`  — `OutputValidator` and its rule engine;
* `src/src/actors/handoff.rs`     — `HandoffCoordinator.validate_handoff`;
* `src/src/tools/executor.rs`     — the bounded-retry `ToolExecutor`;
* `src/src/actors/agent_actor.rs` — the standalone ReAct loop and `think`;
* `src/src/actors/agent_session.rs` — the session variant of `think`;
* `src/src/actors/specialized_agent.rs` — the specialized-agent loop;
* `src/src/actors/supervisor_agent.rs` — `TaskProgress` and `orchestrate`.

External libraries used by the code (serde_json parsing/serialization, the
regex engine, the LLM transport, tools, wall-clock time) are modelled as
explicit function parameters of the embedding; machine floats (`f32`/`f64`)
are modelled as rationals.  Rust `HashMap`s are modelled as association
lists (`serde_json::Map::insert` replaces the value of an existing key).
Rust string byte lengths are modelled with `String.utf8ByteSize`.
-/

namespace Actorus

/-! ## Generic string helpers (models of Rust std behaviour) -/

/-- Model of Rust `str::contains(pat)`: substring containment. -/
def strContains (s pat : String) : Bool :=
  decide (pat.data <:+: s.data)

/-- Model of Rust `Vec::join(sep)` / `slice::join`. -/
def joinSep (sep : String) : List String → String
  | [] => ""
  | [x] => x
  | x :: xs => x ++ sep ++ joinSep sep xs

/-- First-match lookup in an association list (model of `HashMap::get`). -/
def lookupC {α : Type} : List (String × α) → String → Option α
  | [], _ => none
  | (k, v) :: rest, key => if k = key then some v else lookupC rest key

/-- Insert-or-replace in an association list (model of `Map::insert`,
which replaces the value stored under an existing key). -/
def insertC {α : Type} : List (String × α) → String → α → List (String × α)
  | [], key, v => [(key, v)]
  | (k, w) :: rest, key, v =>
    if k = key then (key, v) :: rest else (k, w) :: insertC rest key v

/-- Numeric value of a digit list (caller guarantees digits). -/
def digitsVal (cs : List Char) : Nat :=
  cs.foldl (fun a c => a * 10 + (c.toNat - 48)) 0

/-- Model of Rust `str::parse::<usize>()`: optional leading `+`, then a
non-empty run of ASCII digits. -/
def parseNatStr (s : String) : Option Nat :=
  let cs := match s.data with
    | '+' :: rest => rest
    | other => other
  if cs ≠ [] ∧ cs.all (·.isDigit) then some (digitsVal cs) else none

/-- Model of Rust `str::parse::<f64>()` restricted to plain decimal
literals: optional sign, digits, optionally one `.` and more digits, with
at least one digit overall (the code's range constraints are written as
such literals). -/
def parseRatStr (s : String) : Option ℚ :=
  let signAndBody : Bool × List Char := match s.data with
    | '-' :: rest => (true, rest)
    | '+' :: rest => (false, rest)
    | other => (false, other)
  let neg := signAndBody.1
  let body := signAndBody.2
  match body.splitOn '.' with
  | [intPart] =>
    if intPart ≠ [] ∧ intPart.all (·.isDigit) then
      some (if neg then -(digitsVal intPart : ℚ) else (digitsVal intPart : ℚ))
    else none
  | [intPart, fracPart] =>
    if (intPart ≠ [] ∨ fracPart ≠ []) ∧ intPart.all (·.isDigit) ∧ fracPart.all (·.isDigit) then
      let q : ℚ := (digitsVal intPart : ℚ) + (digitsVal fracPart : ℚ) / ((10 : ℚ) ^ fracPart.length)
      some (if neg then -q else q)
    else none
  | _ => none

/-- Index of the first occurrence of `pat` as a contiguous sublist of
`hay` (model of Rust `str::find(&str)`). -/
def findSubIdx (pat : List Char) : List Char → Option Nat
  | [] => if pat = [] then some 0 else none
  | c :: rest =>
    if pat.isPrefixOf (c :: rest) then some 0
    else (findSubIdx pat rest).map (· + 1)

/-- Model of Rust `str::split_once("..")`: split at the first occurrence
of `..`, returning the parts before and after it. -/
def splitOnceDots (s : String) : Option (String × String) :=
  match findSubIdx ['.', '.'] s.data with
  | none => none
  | some i => some (⟨s.data.take i⟩, ⟨s.data.drop (i + 2)⟩)

/-! ## JSON values (model of `serde_json::Value`) -/

/-- Model of `serde_json::Value`.  Numbers are modelled as rationals. -/
inductive Json where
  | null
  | bool (b : Bool)
  | num (q : ℚ)
  | str (s : String)
  | arr (elems : List Json)
  | obj (fields : List (String × Json))

/-- Model of `Value::get(&str)`: field lookup on objects, `None` otherwise. -/
def Json.get? : Json → String → Option Json
  | .obj fs, key => lookupC fs key
  | _, _ => none

/-- Model of `Value::as_str()`. -/
def Json.asStr : Json → Option String
  | .str s => some s
  | _ => none

/-- Model of `Value::as_f64()`: defined exactly on numbers. -/
def Json.asF64 : Json → Option ℚ
  | .num q => some q
  | _ => none

/-- Model of `Value::is_string()`. -/
def Json.isString : Json → Bool
  | .str _ => true
  | _ => false

/-! ## Validation data model (`src/src/actors/messages.rs`) -/

/-- `ValidationType` from messages.rs. -/
inductive ValidationType where
  | minLength
  | maxLength
  | pattern
  | range
  | enum
  | custom
deriving DecidableEq

/-- `ValidationRule` from messages.rs. -/
structure ValidationRule where
  field : String
  ruleType : ValidationType
  constraint : String

/-- `OutputSchema` from messages.rs (`field_types` is a `HashMap`,
modelled as an association list). -/
structure OutputSchema where
  schemaVersion : String
  requiredFields : List String
  optionalFields : List String
  fieldTypes : List (String × String)
  validationRules : List ValidationRule

/-- `ValidationError` from messages.rs. -/
structure ValidationError where
  field : String
  errorType : String
  message : String
  expected : Option String
  actual : Option String
deriving DecidableEq

/-- `ValidationResult` from messages.rs. -/
structure ValidationResult where
  valid : Bool
  errors : List ValidationError
  warnings : List String
deriving DecidableEq

/-- `ValidationResult::success()`. -/
def ValidationResult.success : ValidationResult :=
  { valid := true, errors := [], warnings := [] }

/-- `ValidationResult::failure(errors)`. -/
def ValidationResult.failure (errors : List ValidationError) : ValidationResult :=
  { valid := false, errors := errors, warnings := [] }

/-- `ValidationResult::with_warnings(warnings)`. -/
def ValidationResult.withWarnings (r : ValidationResult) (warnings : List String) :
    ValidationResult :=
  { r with warnings := warnings }

/-! ## OutputValidator (`src/src/actors/validation.rs`)

The regex engine (`regex::Regex::new` / `is_match`) is external to the
repository and is modelled as a parameter
`rc : String → Option (String → Bool)`: `rc pat = none` models a pattern
that fails to compile, otherwise `some m` gives its match predicate. -/

/-- `OutputValidator::get_field`: dot-notation nested lookup. -/
def getFieldJson (output : Json) (field : String) : Option Json :=
  (field.splitOn ".").foldl
    (fun acc part => match acc with
      | none => none
      | some v => v.get? part)
    (some output)

/-- `OutputValidator::has_field`. -/
def hasFieldJson (output : Json) (field : String) : Bool :=
  (getFieldJson output field).isSome

/-- `OutputValidator::check_type`. -/
def checkType (value : Json) (expectedType : String) : Bool :=
  match expectedType with
  | "string" => match value with | .str _ => true | _ => false
  | "number" => match value with | .num _ => true | _ => false
  | "boolean" => match value with | .bool _ => true | _ => false
  | "array" => match value with | .arr _ => true | _ => false
  | "object" => match value with | .obj _ => true | _ => false
  | "null" => match value with | .null => true | _ => false
  | _ => true

/-- `OutputValidator::get_value_type`. -/
def getValueType : Json → String
  | .str _ => "string"
  | .num _ => "number"
  | .bool _ => "boolean"
  | .arr _ => "array"
  | .obj _ => "object"
  | .null => "null"

/-- `OutputValidator::apply_rule`.  Returns `some err` exactly when the
Rust function returns `Some(error)`.  String lengths are byte lengths
(`str::len`). -/
def applyRule (rc : String → Option (String → Bool)) (rule : ValidationRule)
    (value : Json) : Option ValidationError :=
  match rule.ruleType with
  | .minLength =>
    match value.asStr with
    | some s =>
      match parseNatStr rule.constraint with
      | some min =>
        if s.utf8ByteSize < min then
          some { field := rule.field, errorType := "MinLength",
                 message := "Field '" ++ rule.field ++ "' is too short. Min: " ++
                   toString min ++ ", Actual: " ++ toString s.utf8ByteSize,
                 expected := some ("length >= " ++ toString min),
                 actual := some (toString s.utf8ByteSize) }
        else none
      | none => none
    | none => none
  | .maxLength =>
    match value.asStr with
    | some s =>
      match parseNatStr rule.constraint with
      | some max =>
        if s.utf8ByteSize > max then
          some { field := rule.field, errorType := "MaxLength",
                 message := "Field '" ++ rule.field ++ "' is too long. Max: " ++
                   toString max ++ ", Actual: " ++ toString s.utf8ByteSize,
                 expected := some ("length <= " ++ toString max),
                 actual := some (toString s.utf8ByteSize) }
        else none
      | none => none
    | none => none
  | .pattern =>
    match value.asStr with
    | some s =>
      match rc rule.constraint with
      | some isMatch =>
        if ¬ isMatch s then
          some { field := rule.field, errorType := "Pattern",
                 message := "Field '" ++ rule.field ++ "' does not match pattern: " ++
                   rule.constraint,
                 expected := some rule.constraint,
                 actual := some s }
        else none
      | none => none
    | none => none
  | .range =>
    match value.asF64 with
    | some n =>
      match splitOnceDots rule.constraint with
      | some (minStr, maxStr) =>
        match parseRatStr minStr, parseRatStr maxStr with
        | some min, some max =>
          if n < min ∨ n > max then
            some { field := rule.field, errorType := "Range",
                   message := "Field '" ++ rule.field ++ "' out of range. Range: " ++
                     rule.constraint ++ ", Actual: " ++ toString n,
                   expected := some rule.constraint,
                   actual := some (toString n) }
          else none
        | _, _ => none
      | none => none
    | none => none
  | .enum =>
    match value.asStr with
    | some s =>
      let allowed := (rule.constraint.splitOn ",").map (·.trim)
      if ¬ allowed.contains s then
        some { field := rule.field, errorType := "Enum",
               message := "Field '" ++ rule.field ++ "' has invalid value. Allowed: [" ++
                 rule.constraint ++ "], Actual: " ++ s,
               expected := some ("one of: " ++ rule.constraint),
               actual := some s }
      else none
    | none => none
  | .custom => none

/-- `OutputValidator` from validation.rs: registered schemas keyed by name. -/
structure OutputValidator where
  schemas : List (String × OutputSchema)

/-- `OutputValidator::validate(schema_name, output)`. -/
def OutputValidator.validate (rc : String → Option (String → Bool))
    (v : OutputValidator) (schemaName : String) (output : Json) : ValidationResult :=
  match lookupC v.schemas schemaName with
  | none =>
    ValidationResult.failure
      [{ field := "schema", errorType := "SchemaNotFound",
         message := "Schema '" ++ schemaName ++ "' not registered",
         expected := none, actual := none }]
  | some schema =>
    let requiredErrors := schema.requiredFields.filterMap (fun field =>
      if hasFieldJson output field then none
      else some { field := field, errorType := "MissingRequired",
                  message := "Required field '" ++ field ++ "' is missing",
                  expected := some "present", actual := some "missing" })
    let typeErrors := schema.fieldTypes.filterMap (fun ft =>
      match getFieldJson output ft.1 with
      | some value =>
        if ¬ checkType value ft.2 then
          some { field := ft.1, errorType := "TypeMismatch",
                 message := "Field '" ++ ft.1 ++ "' has wrong type. Expected: " ++
                   ft.2 ++ ", Actual: " ++ getValueType value,
                 expected := some ft.2, actual := some (getValueType value) }
        else none
      | none => none)
    let ruleErrors := schema.validationRules.filterMap (fun rule =>
      match getFieldJson output rule.field with
      | some value => applyRule rc rule value
      | none => none)
    let warnings := schema.validationRules.filterMap (fun rule =>
      match getFieldJson output rule.field with
      | some _ => none
      | none =>
        if schema.requiredFields.contains rule.field then none
        else some ("Optional field '" ++ rule.field ++ "' not present for validation"))
    let errors := requiredErrors ++ typeErrors ++ ruleErrors
    if errors.isEmpty then ValidationResult.success.withWarnings warnings
    else (ValidationResult.failure errors).withWarnings warnings

/-! ## Claims C8 and C10: the rule engine -/

/-- C8: for a numeric value checked against a Range rule whose constraint
parses as `min..max`, `apply_rule` reports an error exactly when the value
lies strictly below `min` or strictly above `max` (bounds inclusive), and
the error it reports is a single `Range` error. -/
theorem range_rule_inclusive_bounds (rc : String → Option (String → Bool))
    (f c a b : String) (mn mx q : ℚ)
    (hsplit : splitOnceDots c = some (a, b))
    (hmin : parseRatStr a = some mn) (hmax : parseRatStr b = some mx) :
    (applyRule rc ⟨f, .range, c⟩ (Json.num q) = none ↔ mn ≤ q ∧ q ≤ mx) ∧
    (q < mn ∨ mx < q →
      ∃ e, applyRule rc ⟨f, .range, c⟩ (Json.num q) = some e ∧ e.errorType = "Range") := by
  simp only [applyRule, Json.asF64, hsplit, hmin, hmax]
  by_cases h : q < mn ∨ q > mx
  · rw [if_pos h]
    refine ⟨⟨fun hc => absurd hc (by simp), fun hq => ?_⟩, fun _ => ⟨_, rfl, rfl⟩⟩
    rcases h with h | h
    · exact absurd hq.1 (not_le.mpr h)
    · exact absurd hq.2 (not_le.mpr h)
  · rw [if_neg h]
    push_neg at h
    refine ⟨⟨fun _ => h, fun _ => rfl⟩, fun hc => ?_⟩
    rcases hc with hc | hc
    · exact absurd hc (not_lt.mpr h.1)
    · exact absurd hc (not_lt.mpr h.2)

/-- Witness for `range_rule_inclusive_bounds`: constraint `0..100`, value
150 gives one Range error, value 50 gives none. -/
theorem range_rule_inclusive_bounds_witness :
    applyRule (fun _ => none) ⟨"f", .range, "0..100"⟩ (Json.num 50) = none ∧
    ∃ e, applyRule (fun _ => none) ⟨"f", .range, "0..100"⟩ (Json.num 150) = some e ∧
      e.errorType = "Range" :=
  ⟨((range_rule_inclusive_bounds (fun _ => none) "f" "0..100" "0" "100" 0 100 50
      (by decide) (by decide) (by decide)).1).mpr (by norm_num),
   (range_rule_inclusive_bounds (fun _ => none) "f" "0..100" "0" "100" 0 100 150
      (by decide) (by decide) (by decide)).2 (by norm_num)⟩

/-- C10: `apply_rule` is silent whenever the value's JSON type is not the
one the rule inspects, or the rule's constraint fails to parse:
MinLength/MaxLength/Pattern/Enum ignore non-string values, Range ignores
non-numeric values, a non-numeric length bound, a pattern that fails to
compile and a malformed range constraint all produce no error.  (`validate`
applies a rule only when its target field is present.) -/
theorem apply_rule_silent_on_unchecked_values (rc : String → Option (String → Bool)) :
    (∀ (rule : ValidationRule) (v : Json),
        (rule.ruleType = .minLength ∨ rule.ruleType = .maxLength ∨
         rule.ruleType = .pattern ∨ rule.ruleType = .enum) →
        v.asStr = none → applyRule rc rule v = none) ∧
    (∀ (rule : ValidationRule) (v : Json), rule.ruleType = .range →
        v.asF64 = none → applyRule rc rule v = none) ∧
    (∀ (rule : ValidationRule) (v : Json),
        (rule.ruleType = .minLength ∨ rule.ruleType = .maxLength) →
        parseNatStr rule.constraint = none → applyRule rc rule v = none) ∧
    (∀ (rule : ValidationRule) (v : Json), rule.ruleType = .pattern →
        rc rule.constraint = none → applyRule rc rule v = none) ∧
    (∀ (rule : ValidationRule) (v : Json), rule.ruleType = .range →
        (splitOnceDots rule.constraint = none ∨
         ∃ a b, splitOnceDots rule.constraint = some (a, b) ∧
           (parseRatStr a = none ∨ parseRatStr b = none)) →
        applyRule rc rule v = none) := by
  refine ⟨?_, ?_, ?_, ?_, ?_⟩
  · rintro ⟨f, rt, c⟩ v ht hs
    rcases ht with h | h | h | h <;> subst h <;> simp [applyRule, hs]
  · rintro ⟨f, rt, c⟩ v ht hn
    subst ht; simp [applyRule, hn]
  · rintro ⟨f, rt, c⟩ v ht hc
    rcases ht with h | h <;> subst h <;> simp only [applyRule] <;>
      cases hv : v.asStr <;> simp [hc]
  · rintro ⟨f, rt, c⟩ v ht hc
    subst ht; simp only [applyRule]
    cases hv : v.asStr <;> simp [hc]
  · rintro ⟨f, rt, c⟩ v ht hc
    subst ht; simp only [applyRule]
    cases hv : v.asF64 with
    | none => rfl
    | some n =>
      rcases hc with h | ⟨a, b, hab, h⟩
      · simp [h]
      · rcases h with h | h
        · simp [hab, h]
        · simp only [hab, h]
          cases hpa : parseRatStr a <;> simp

/-- Witness for `apply_rule_silent_on_unchecked_values`: a MinLength rule
on an array value, a Range rule on a string value, a MinLength rule with a
non-numeric bound, a Pattern rule whose regex fails to compile, and a
Range rule with a malformed constraint all yield no error. -/
theorem apply_rule_silent_on_unchecked_values_witness :
    applyRule (fun _ => none) ⟨"f", .minLength, "3"⟩ (Json.arr []) = none ∧
    applyRule (fun _ => none) ⟨"f", .range, "0..100"⟩ (Json.str "5") = none ∧
    applyRule (fun _ => none) ⟨"f", .minLength, "abc"⟩ (Json.str "x") = none ∧
    applyRule (fun _ => none) ⟨"f", .pattern, "["⟩ (Json.str "x") = none ∧
    applyRule (fun _ => none) ⟨"f", .range, "nope"⟩ (Json.num 5) = none :=
  ⟨(apply_rule_silent_on_unchecked_values (fun _ => none)).1 ⟨"f", .minLength, "3"⟩
      (Json.arr []) (Or.inl rfl) (by decide),
   (apply_rule_silent_on_unchecked_values (fun _ => none)).2.1 ⟨"f", .range, "0..100"⟩
      (Json.str "5") rfl (by decide),
   (apply_rule_silent_on_unchecked_values (fun _ => none)).2.2.1 ⟨"f", .minLength, "abc"⟩
      (Json.str "x") (Or.inl rfl) (by decide),
   (apply_rule_silent_on_unchecked_values (fun _ => none)).2.2.2.1 ⟨"f", .pattern, "["⟩
      (Json.str "x") rfl rfl,
   (apply_rule_silent_on_unchecked_values (fun _ => none)).2.2.2.2 ⟨"f", .range, "nope"⟩
      (Json.num 5) rfl (Or.inl (by decide))⟩

/-! ## Agent messages (`src/src/actors/messages.rs`) -/

/-- `AgentStep` from messages.rs. -/
structure AgentStep where
  iteration : Nat
  thought : String
  action : Option String
  observation : Option String
deriving DecidableEq

/-- `ToolCallMetadata` from messages.rs. -/
structure ToolCallMetadata where
  toolName : String
  inputSize : Nat
  outputSize : Nat
  durationMs : Nat
  success : Bool
deriving DecidableEq

/-- `OutputMetadata` from messages.rs (`confidence: f32` modelled as a
rational). -/
structure OutputMetadata where
  confidence : ℚ
  executionTimeMs : Nat
  tokensUsed : Option Nat
  partialResults : List (String × String)
  schemaVersion : Option String
  validationResult : Option ValidationResult
  agentName : Option String
  toolCalls : List ToolCallMetadata

/-- `OutputMetadata::default()`. -/
def OutputMetadata.default : OutputMetadata :=
  { confidence := 1, executionTimeMs := 0, tokensUsed := none, partialResults := [],
    schemaVersion := none, validationResult := none, agentName := none, toolCalls := [] }

/-- `CompletionStatus` from messages.rs (`f32` fields as rationals). -/
inductive CompletionStatus where
  | complete (confidence : ℚ)
  | partialStatus (progress : ℚ) (nextSteps : List String)
  | blocked (reason : String) (needs : List String)
  | failed (error : String) (recoverable : Bool)

/-- `AgentResponse` from messages.rs. -/
inductive AgentResponse where
  | success (result : String) (steps : List AgentStep)
      (metadata : Option OutputMetadata) (completionStatus : Option CompletionStatus)
  | failure (error : String) (steps : List AgentStep)
      (metadata : Option OutputMetadata) (completionStatus : Option CompletionStatus)
  | timeout (partialResult : String) (steps : List AgentStep)
      (metadata : Option OutputMetadata) (completionStatus : Option CompletionStatus)

/-- Steps carried by any `AgentResponse` variant. -/
def AgentResponse.steps : AgentResponse → List AgentStep
  | .success _ s _ _ => s
  | .failure _ s _ _ => s
  | .timeout _ s _ _ => s

/-- Primary string carried by an `AgentResponse` (`result`, `error` or
`partial_result`). -/
def AgentResponse.primary : AgentResponse → String
  | .success r _ _ _ => r
  | .failure e _ _ _ => e
  | .timeout p _ _ _ => p

/-- Whether an `AgentResponse` is the `Success` variant. -/
def AgentResponse.isSuccess : AgentResponse → Bool
  | .success _ _ _ _ => true
  | _ => false

/-! ## HandoffCoordinator (`src/src/actors/handoff.rs`)

`serde_json::from_str::<Value>` is external and is modelled as a parameter
`pj : String → Option Json` (`none` models a parse failure). -/

/-- `HandoffContract` from handoff.rs. -/
structure HandoffContract where
  fromAgent : String
  toAgent : Option String
  schema : OutputSchema
  maxExecutionTimeMs : Option Nat

/-- `HandoffCoordinator` from handoff.rs. -/
structure HandoffCoordinator where
  validator : OutputValidator
  contracts : List (String × HandoffContract)

/-- `HandoffCoordinator::new()`. -/
def HandoffCoordinator.new : HandoffCoordinator :=
  { validator := { schemas := [] }, contracts := [] }

/-- `HandoffCoordinator::register_contract`. -/
def HandoffCoordinator.registerContract (co : HandoffCoordinator) (name : String)
    (contract : HandoffContract) : HandoffCoordinator :=
  { validator := { schemas := insertC co.validator.schemas name contract.schema },
    contracts := insertC co.contracts name contract }

/-- The execution-time warning pushed by `validate_handoff` (handoff.rs
lines 104-111). -/
def execTimeWarning (t limit : Nat) : String :=
  "Execution time (" ++ toString t ++ "ms) exceeded limit (" ++ toString limit ++ "ms)"

/-- The soft warning pushed by `validate_handoff` when the result is not
JSON but the schema expects structured data (handoff.rs lines 132-139). -/
def nonJsonWarning : String :=
  "Result is not valid JSON, but schema expects structured data"

/-- Warnings contributed by the metadata execution-time check
(handoff.rs lines 102-111). -/
def metadataTimeWarnings (contract : HandoffContract) :
    Option OutputMetadata → List String
  | some meta =>
    match contract.maxExecutionTimeMs with
    | some maxTime =>
      if meta.executionTimeMs > maxTime then [execTimeWarning meta.executionTimeMs maxTime]
      else []
    | none => []
  | none => []

/-- Errors merged in from an embedded `validation_result`
(handoff.rs lines 113-120). -/
def metadataEmbeddedErrors : Option OutputMetadata → List ValidationError
  | some meta =>
    match meta.validationResult with
    | some validation => if ¬ validation.valid then validation.errors else []
    | none => []
  | none => []

/-- `HandoffCoordinator::validate_handoff(contract_name, response)`. -/
def validateHandoff (rc : String → Option (String → Bool)) (pj : String → Option Json)
    (co : HandoffCoordinator) (contractName : String) (response : AgentResponse) :
    ValidationResult :=
  match lookupC co.contracts contractName with
  | none =>
    ValidationResult.failure
      [{ field := "contract", errorType := "ContractNotFound",
         message := "Handoff contract '" ++ contractName ++ "' not registered",
         expected := none, actual := none }]
  | some contract =>
    match response with
    | .failure _ _ _ _ =>
      ValidationResult.failure
        [{ field := "response", errorType := "AgentFailure",
           message := "Agent failed to complete task",
           expected := some "Success", actual := some "Failure" }]
    | .timeout _ _ _ _ =>
      ValidationResult.failure
        [{ field := "response", errorType := "AgentTimeout",
           message := "Agent timed out before completing task",
           expected := some "Success", actual := some "Timeout" }]
    | .success result _ metadata _ =>
      let timeWarnings := metadataTimeWarnings contract metadata
      let embedded := metadataEmbeddedErrors metadata
      match pj result with
      | some jsonValue =>
        let sv := co.validator.validate rc contractName jsonValue
        let errors := embedded ++ (if ¬ sv.valid then sv.errors else [])
        let warnings := timeWarnings ++ sv.warnings
        if errors.isEmpty then ValidationResult.success.withWarnings warnings
        else (ValidationResult.failure errors).withWarnings warnings
      | none =>
        let warnings := timeWarnings ++
          (if contract.schema.fieldTypes.any (fun t => t.2 ≠ "string") then [nonJsonWarning]
           else [])
        if embedded.isEmpty then ValidationResult.success.withWarnings warnings
        else (ValidationResult.failure embedded).withWarnings warnings

/-! ## Claim C7: lenient handling of non-JSON results -/

/-- The execution-time warning never coincides with the non-JSON soft
warning (their texts differ from the first character on). -/
theorem execTimeWarning_ne_nonJsonWarning (t limit : Nat) :
    execTimeWarning t limit ≠ nonJsonWarning := by
  intro h
  have hd := congrArg (fun s => s.data.head?) h
  simp only [execTimeWarning, nonJsonWarning, String.data_append, List.cons_append,
    List.head?_cons] at hd
  exact absurd hd (by decide)

/-- C7: for a Success response whose result string does not parse as JSON
and whose metadata carries no embedded validation errors, the contract
being registered, `validate_handoff` returns `valid = true` with no
errors (required fields, field types and rules are unchecked); the
non-JSON soft warning is emitted iff `field_types` maps some field to a
non-`"string"` type, and — absent an execution-time warning — that soft
warning is the only possible one, so warnings are nonempty iff the schema
expects a non-string field.  Warnings never affect validity. -/
theorem validate_handoff_non_json_lenient
    (rc : String → Option (String → Bool)) (pj : String → Option Json)
    (co : HandoffCoordinator) (name result : String) (steps : List AgentStep)
    (md : Option OutputMetadata) (cs : Option CompletionStatus)
    (contract : HandoffContract)
    (hco : lookupC co.contracts name = some contract)
    (hpj : pj result = none)
    (hemb : metadataEmbeddedErrors md = []) :
    (validateHandoff rc pj co name (.success result steps md cs)).valid = true ∧
    (validateHandoff rc pj co name (.success result steps md cs)).errors = [] ∧
    (nonJsonWarning ∈ (validateHandoff rc pj co name (.success result steps md cs)).warnings ↔
      contract.schema.fieldTypes.any (fun t => decide (t.2 ≠ "string")) = true) ∧
    (metadataTimeWarnings contract md = [] →
      ((validateHandoff rc pj co name (.success result steps md cs)).warnings ≠ [] ↔
        contract.schema.fieldTypes.any (fun t => decide (t.2 ≠ "string")) = true)) := by
  have htw : metadataTimeWarnings contract md = [] ∨
      ∃ t limit, metadataTimeWarnings contract md = [execTimeWarning t limit] := by
    cases md with
    | none => exact Or.inl rfl
    | some meta =>
      cases hmax : contract.maxExecutionTimeMs with
      | none => exact Or.inl (by simp [metadataTimeWarnings, hmax])
      | some maxTime =>
        by_cases ht : meta.executionTimeMs > maxTime
        · exact Or.inr ⟨meta.executionTimeMs, maxTime,
            by simp [metadataTimeWarnings, hmax, ht]⟩
        · exact Or.inl (by simp [metadataTimeWarnings, hmax, ht])
  simp only [validateHandoff, hco, hpj, hemb, List.isEmpty_nil, if_true]
  refine ⟨rfl, rfl, ?_, ?_⟩
  · by_cases hft : contract.schema.fieldTypes.any (fun t => decide (t.2 ≠ "string")) = true
    · simp only [hft, if_true, ValidationResult.withWarnings, ValidationResult.success]
      simp only [hft, iff_true]
      exact List.mem_append_right _ (List.mem_singleton.mpr rfl)
    · simp only [eq_false_of_ne_true hft, if_false, ValidationResult.withWarnings,
        ValidationResult.success, List.append_nil, Bool.false_eq_true, iff_false]
      intro hmem
      rcases htw with htw | ⟨t, limit, htw⟩
      · rw [htw] at hmem; exact absurd hmem (List.not_mem_nil _)
      · rw [htw] at hmem
        exact execTimeWarning_ne_nonJsonWarning t limit (List.mem_singleton.mp hmem).symm
  · intro htw0
    simp only [htw0, List.nil_append, ValidationResult.withWarnings, ValidationResult.success]
    by_cases hft : contract.schema.fieldTypes.any (fun t => decide (t.2 ≠ "string")) = true
    · simp [hft]
    · simp [hft]

/-- Witness for `validate_handoff_non_json_lenient`: a registered contract
whose schema has a required field, a non-string field type and a rule, a
Success response `"plain text"` with no metadata: validation passes with
no errors and exactly the soft warning. -/
theorem validate_handoff_non_json_lenient_witness :
    ((validateHandoff (fun _ => none) (fun _ => none)
        (HandoffCoordinator.new.registerContract "a_handoff"
          { fromAgent := "a", toAgent := none,
            schema := { schemaVersion := "1.0", requiredFields := ["data"],
                        optionalFields := [], fieldTypes := [("data", "array")],
                        validationRules := [⟨"data", .minLength, "1"⟩] },
            maxExecutionTimeMs := some 30000 })
        "a_handoff" (.success "plain text" [] none none)).valid = true) ∧
    ((validateHandoff (fun _ => none) (fun _ => none)
        (HandoffCoordinator.new.registerContract "a_handoff"
          { fromAgent := "a", toAgent := none,
            schema := { schemaVersion := "1.0", requiredFields := ["data"],
                        optionalFields := [], fieldTypes := [("data", "array")],
                        validationRules := [⟨"data", .minLength, "1"⟩] },
            maxExecutionTimeMs := some 30000 })
        "a_handoff" (.success "plain text" [] none none)).warnings ≠ []) := by
  have h := validate_handoff_non_json_lenient (fun _ => none) (fun _ => none)
    (HandoffCoordinator.new.registerContract "a_handoff"
      { fromAgent := "a", toAgent := none,
        schema := { schemaVersion := "1.0", requiredFields := ["data"],
                    optionalFields := [], fieldTypes := [("data", "array")],
                    validationRules := [⟨"data", .minLength, "1"⟩] },
        maxExecutionTimeMs := some 30000 })
    "a_handoff" "plain text" [] none none _ rfl rfl rfl
  exact ⟨h.1, (h.2.2.2 rfl).mpr (by decide)⟩

/-! ## ToolExecutor (`src/src/tools/executor.rs`)

A tool (`tool.execute(args)`) is external: it is modelled as a function
from the attempt number to the outcome of that attempt
(`Except String ToolResult`, where `.error e` models the Rust `Err(e)`
branch).  The argument value is fixed over the retries (`args.clone()`),
so it is not a parameter of the per-attempt function. -/

/-- `ToolResult` from `src/src/tools/mod.rs`. -/
structure ToolResult where
  success : Bool
  output : String
  error : Option String
deriving DecidableEq

/-- `ToolResult::success(output)`. -/
def ToolResult.mkSuccess (output : String) : ToolResult :=
  { success := true, output := output, error := none }

/-- `ToolResult::failure(error)`. -/
def ToolResult.mkFailure (error : String) : ToolResult :=
  { success := false, output := "", error := some error }

/-- `ToolConfig` from `src/src/tools/mod.rs`. -/
structure ToolConfig where
  timeoutSecs : Nat
  maxRetries : Nat
  sandbox : Bool

/-- `ToolConfig::default()`. -/
def ToolConfig.default : ToolConfig :=
  { timeoutSecs := 30, maxRetries := 3, sandbox := true }

/-- Model of `str::to_lowercase` (per-char lowering; the Unicode corner
cases of full case folding are irrelevant to the claims). -/
def strToLower (s : String) : String :=
  ⟨s.data.map Char.toLower⟩

/-- `ToolExecutor::should_retry`. -/
def shouldRetry (result : ToolResult) : Bool :=
  match result.error with
  | some error =>
    let errorLower := strToLower error
    if strContains errorLower "validation" || strContains errorLower "not allowed" ||
        strContains errorLower "permission" || strContains errorLower "empty" then
      false
    else if strContains errorLower "timeout" || strContains errorLower "connection" ||
        strContains errorLower "network" then
      true
    else
      true
  | none => true

/-- `ToolExecutor::calculate_backoff` (u64 wraparound not modelled; no
claim quantifies the delay). -/
def calculateBackoff (attempt : Nat) : Nat :=
  min (100 * 2 ^ attempt) 5000

/-- The synthesized failure message of `ToolExecutor::execute` when all
retries are exhausted (executor.rs lines 66-71). -/
def exhaustMsg (toolName : String) (maxRetries : Nat) (lastError : Option String) : String :=
  "Tool '" ++ toolName ++ "' failed after " ++ toString maxRetries ++
    " attempts. Last error: " ++ lastError.getD "Unknown error"

/-- The retry loop of `ToolExecutor::execute` (executor.rs lines 35-71):
`attempt` is the loop counter, `fuel = max_retries - attempt` the
remaining iterations, `lastError` the accumulator.  The backoff sleep is
a pure delay and does not affect the result. -/
def executeGo (toolName : String) (maxRetries : Nat)
    (tool : Nat → Except String ToolResult) :
    Nat → Nat → Option String → ToolResult
  | _, 0, last => ToolResult.mkFailure (exhaustMsg toolName maxRetries last)
  | attempt, fuel + 1, _lastError =>
    match tool attempt with
    | .ok result =>
      if result.success then result
      else if ¬ shouldRetry result then result
      else executeGo toolName maxRetries tool (attempt + 1) fuel result.error
    | .error e => executeGo toolName maxRetries tool (attempt + 1) fuel (some e)

/-- `ToolExecutor` from executor.rs. -/
structure ToolExecutor where
  config : ToolConfig

/-- `ToolExecutor::execute(tool, args)` (always returns `Ok(...)` in the
source — it never raises; the model therefore returns `ToolResult`
directly). -/
def ToolExecutor.execute (ex : ToolExecutor) (toolName : String)
    (tool : Nat → Except String ToolResult) : ToolResult :=
  executeGo toolName ex.config.maxRetries tool 0 ex.config.maxRetries none

/-- A tool that fails with result `failRes` on the first `k` attempts and
returns `okRes` from attempt `k` on (the shape quantified over by C3). -/
def toolKmodel (k : Nat) (failRes okRes : ToolResult) : Nat → Except String ToolResult :=
  fun n => if n < k then .ok failRes else .ok okRes

/-! ## Claim C3: the bounded-retry policy -/

/-- An infix of `y` is an infix of `y ++ z`. -/
theorem infix_extend_right {α : Type} {x y : List α} (h : x <:+: y) (z : List α) :
    x <:+: y ++ z := by
  obtain ⟨s, t, rfl⟩ := h
  exact ⟨s, t ++ z, by simp⟩

/-- An infix of `y` is an infix of `z ++ y`. -/
theorem infix_extend_left {α : Type} {x y : List α} (h : x <:+: y) (z : List α) :
    x <:+: z ++ y := by
  obtain ⟨s, t, rfl⟩ := h
  exact ⟨z ++ s, t, by simp⟩

/-- Substring containment follows from char-list infix. -/
theorem strContains_of_infixChars {s pat : String} (h : pat.data <:+: s.data) :
    strContains s pat = true := by
  simp [strContains, h]

/-- The exhaustion message contains "failed after", the attempt count,
and the last error when there is one. -/
theorem exhaustMsg_contains (name : String) (mr : Nat) (last : Option String) :
    strContains (exhaustMsg name mr last) "failed after" = true ∧
    strContains (exhaustMsg name mr last) (toString mr) = true ∧
    ∀ e, last = some e → strContains (exhaustMsg name mr last) e = true := by
  refine ⟨strContains_of_infixChars ?_, strContains_of_infixChars ?_, fun e he => strContains_of_infixChars ?_⟩
  · simp only [exhaustMsg, String.data_append, List.append_assoc]
    exact infix_extend_left (infix_extend_left (infix_extend_right (by decide) _) _) _
  · simp only [exhaustMsg, String.data_append, List.append_assoc]
    exact infix_extend_left (infix_extend_left (infix_extend_left
      (infix_extend_right (List.infix_refl _) _) _) _) _
  · subst he
    simp only [exhaustMsg, Option.getD_some, String.data_append, List.append_assoc]
    exact infix_extend_left (infix_extend_left (infix_extend_left (infix_extend_left
      (infix_extend_left (List.infix_refl _) _) _) _) _) _

/-- If the tool still fails at the current attempt and retries remain, the
loop reaches the success attempt `k` and returns `okRes`. -/
theorem executeGo_reaches_success (name : String) (mr k : Nat) (failRes okRes : ToolResult)
    (hfail : failRes.success = false) (hretry : shouldRetry failRes = true)
    (hok : okRes.success = true) (fuel : Nat) :
    ∀ (attempt : Nat) (last : Option String), attempt ≤ k → k < attempt + fuel →
      executeGo name mr (toolKmodel k failRes okRes) attempt fuel last = okRes := by
  induction fuel with
  | zero => intro attempt last h1 h2; omega
  | succ fuel ih =>
    intro attempt last h1 h2
    by_cases hlt : attempt < k
    · simp only [executeGo, toolKmodel, if_pos hlt, hfail, hretry, Bool.false_eq_true,
        if_false, not_true, ite_self]
      exact ih (attempt + 1) failRes.error (by omega) (by omega)
    · have heq : attempt = k := le_antisymm h1 (not_lt.mp hlt)
      simp [executeGo, toolKmodel, heq, hok]

/-- If the retries run out before attempt `k`, the loop returns the
synthesized failure, whose recorded last error is the tool error as soon
as at least one attempt was made. -/
theorem executeGo_exhausts (name : String) (mr k : Nat) (failRes okRes : ToolResult)
    (hfail : failRes.success = false) (hretry : shouldRetry failRes = true) (fuel : Nat) :
    ∀ (attempt : Nat) (last : Option String), attempt + fuel ≤ k →
      executeGo name mr (toolKmodel k failRes okRes) attempt fuel last =
        ToolResult.mkFailure (exhaustMsg name mr (if fuel = 0 then last else failRes.error)) := by
  induction fuel with
  | zero => intro attempt last _; simp [executeGo]
  | succ fuel ih =>
    intro attempt last h2
    have hlt : attempt < k := by omega
    simp only [executeGo, toolKmodel, if_pos hlt, hfail, hretry, Bool.false_eq_true,
      if_false, not_true, ite_self]
    rw [ih (attempt + 1) failRes.error (by omega)]
    by_cases hf : fuel = 0 <;> simp [hf]

/-- C3: a tool failing with a retryable error exactly `k` times and then
succeeding: for `max_retries > k` the executor returns the successful
result; for `max_retries ≤ k` it never raises and returns a synthesized
failure `ToolResult` whose message contains "failed after", the attempt
count, and (as soon as one attempt was made) the last error. -/
theorem tool_executor_retry_policy (config : ToolConfig) (name e out : String) (k : Nat)
    (hretry : shouldRetry (ToolResult.mkFailure e) = true) :
    (config.maxRetries > k →
      ToolExecutor.execute ⟨config⟩ name
        (toolKmodel k (ToolResult.mkFailure e) (ToolResult.mkSuccess out)) =
        ToolResult.mkSuccess out) ∧
    (config.maxRetries ≤ k →
      ∃ m, ToolExecutor.execute ⟨config⟩ name
          (toolKmodel k (ToolResult.mkFailure e) (ToolResult.mkSuccess out)) =
          ToolResult.mkFailure m ∧
        strContains m "failed after" = true ∧
        strContains m (toString config.maxRetries) = true ∧
        (1 ≤ config.maxRetries → strContains m e = true)) := by
  constructor
  · intro hgt
    exact executeGo_reaches_success name config.maxRetries k _ _ rfl hretry rfl
      config.maxRetries 0 none (Nat.zero_le k) (by omega)
  · intro hle
    refine ⟨exhaustMsg name config.maxRetries
      (if config.maxRetries = 0 then none else (ToolResult.mkFailure e).error), ?_, ?_, ?_, ?_⟩
    · exact executeGo_exhausts name config.maxRetries k _ _ rfl hretry
        config.maxRetries 0 none (by omega)
    · exact (exhaustMsg_contains name config.maxRetries _).1
    · exact (exhaustMsg_contains name config.maxRetries _).2.1
    · intro h1
      have hmr : (if config.maxRetries = 0 then none
          else (ToolResult.mkFailure e).error) = some e := by
        rw [if_neg (by omega)]; rfl
      exact (exhaustMsg_contains name config.maxRetries _).2.2 e hmr

/-- Witness for `tool_executor_retry_policy`: a tool failing once with
"network down" succeeds under `max_retries = 3` and exhausts under
`max_retries = 1` with a "failed after" message carrying the error. -/
theorem tool_executor_retry_policy_witness :
    (ToolExecutor.execute ⟨⟨30, 3, false⟩⟩ "t"
      (toolKmodel 1 (ToolResult.mkFailure "network down") (ToolResult.mkSuccess "done")) =
      ToolResult.mkSuccess "done") ∧
    ∃ m, ToolExecutor.execute ⟨⟨30, 1, false⟩⟩ "t"
        (toolKmodel 1 (ToolResult.mkFailure "network down") (ToolResult.mkSuccess "done")) =
        ToolResult.mkFailure m ∧
      strContains m "failed after" = true ∧
      strContains m (toString (1 : Nat)) = true ∧
      strContains m "network down" = true := by
  have h3 := tool_executor_retry_policy ⟨30, 3, false⟩ "t" "network down" "done" 1 (by decide)
  have h1 := tool_executor_retry_policy ⟨30, 1, false⟩ "t" "network down" "done" 1 (by decide)
  refine ⟨h3.1 (by decide), ?_⟩
  obtain ⟨m, hm, hfa, hmr, he⟩ := h1.2 (by decide)
  exact ⟨m, hm, hfa, hmr, he (by decide)⟩

/-! ## Decision parsing (`think` in agent_actor.rs, specialized_agent.rs
and agent_session.rs)

`serde_json::from_str::<AgentDecision>` is external and is modelled as a
parameter `pd : String → Option AgentDecision`.  The extraction tier
slices `&response[start..=end]` where `start = response.find('{')` and
`end = response.rfind('}')`; byte indices are modelled by char indices,
which is faithful here: `{` and `}` are one-byte chars, so index order,
the panic condition and the sliced text agree between the two views. -/

/-- `AgentAction` from agent_actor.rs. -/
structure AgentAction where
  tool : String
  input : Json

/-- `AgentDecision` from agent_actor.rs. -/
structure AgentDecision where
  thought : String
  action : Option AgentAction
  isFinal : Bool
  finalAnswer : Option String

/-- Outcome of the first-`{`-to-last-`}` extraction: no brace pair found,
the sliced substring, or a slice panic (Rust `&response[start..=end]`
panics when `start > end + 1`). -/
inductive BraceOut where
  | noBraces
  | crash
  | sub (s : String)
deriving DecidableEq

/-- The `response.find('{')` / `response.rfind('}')` /
`&response[start..=end]` sequence shared by all `think` variants and by
`SupervisorAgent::decide_next_action`. -/
def braceExtract (s : String) : BraceOut :=
  let cs := s.data
  match cs.findIdx? (· == '{'), cs.reverse.findIdx? (· == '}') with
  | some start, some jrev =>
    let stop := cs.length - 1 - jrev
    if start ≤ stop + 1 then .sub ⟨(cs.drop start).take (stop + 1 - start)⟩ else .crash
  | _, _ => .noBraces

/-- `think` in agent_actor.rs lines 361-395 (specialized_agent.rs lines
494-537 is identical): strict parse, else parse the extracted substring,
else wrap the raw text as `thought` with `is_final = false`.  The result
is `none` when the extraction slice panics. -/
def thinkParseStandalone (pd : String → Option AgentDecision) (response : String) :
    Option AgentDecision :=
  match pd response with
  | some d => some d
  | none =>
    match braceExtract response with
    | .sub jsonStr =>
      match pd jsonStr with
      | some d => some d
      | none =>
        some { thought := response, action := none, isFinal := false, finalAnswer := none }
    | .noBraces =>
      some { thought := response, action := none, isFinal := false, finalAnswer := none }
    | .crash => none

/-- `AgentSession::think` in agent_session.rs lines 328-369: same two
parse tiers, but the final fallback treats the raw text as a direct
conversational answer (`is_final = true`, `final_answer = response`). -/
def thinkParseSession (pd : String → Option AgentDecision) (response : String) :
    Option AgentDecision :=
  match pd response with
  | some d => some d
  | none =>
    match braceExtract response with
    | .sub jsonStr =>
      match pd jsonStr with
      | some d => some d
      | none =>
        some { thought := response, action := none, isFinal := true,
               finalAnswer := some response }
    | .noBraces =>
      some { thought := response, action := none, isFinal := true,
             finalAnswer := some response }
    | .crash => none

/-- A parse oracle that recognizes exactly the string `"{j}"` (used to
exercise the extraction tier on a concrete input). -/
def pdBraced : String → Option AgentDecision :=
  fun s => if s = "\x7bj\x7d" then some ⟨"t", none, false, none⟩ else none

/-- C4 (code bug): on a response whose first `{` lies more than one
position past its last `}` (e.g. `"\x7da\x7b"`, where nothing parses), the
slice `&response[start..=end]` panics (`start = 2 > end + 1 = 1`), so
`think` crashes instead of producing the documented raw-text fallback.
On ordinary unparseable responses both fallbacks behave as claimed:
the standalone variant continues the loop (`is_final = false`), the
session variant replies conversationally (`is_final = true` with the raw
text), and the extraction tier is used when the brace substring parses. -/
theorem think_fallback_panics_on_reversed_braces :
    thinkParseStandalone (fun _ => none) "\x7da\x7b" = none ∧
    thinkParseSession (fun _ => none) "\x7da\x7b" = none ∧
    thinkParseStandalone (fun _ => none) "hello" =
      some { thought := "hello", action := none, isFinal := false, finalAnswer := none } ∧
    thinkParseSession (fun _ => none) "hello" =
      some { thought := "hello", action := none, isFinal := true,
             finalAnswer := some "hello" } ∧
    thinkParseStandalone pdBraced "a\x7bj\x7d b" = some ⟨"t", none, false, none⟩ ∧
    thinkParseSession pdBraced "a\x7bj\x7d b" = some ⟨"t", none, false, none⟩ := by
  refine ⟨rfl, rfl, rfl, rfl, ?_, ?_⟩ <;>
    simp [thinkParseStandalone, thinkParseSession, pdBraced, braceExtract]

/-! ## The ReAct loops (`agent_actor.rs::run_react_loop` and
`SpecializedAgent::execute_task_with_context`)

The LLM transport, the serde parser/serializer, the tool registry and the
wall clock are external; they are collected in a `LoopEnv`.  Oracles take
the conversation history (the LLM) or the iteration number (tools), which
captures deterministic strategies over the full interaction transcript.
A `think` slice panic (see `braceExtract`) makes the whole run crash, so
the loops return `Option AgentResponse` with `none` for that crash. -/

/-- `ChatMessage` from `src/src/core/llm.rs`. -/
structure ChatMessage where
  role : String
  content : String

/-- External collaborators of both ReAct loops. -/
structure LoopEnv where
  /-- `LLMClient::chat`. -/
  chat : List ChatMessage → Except String String
  /-- `serde_json::from_str::<AgentDecision>`. -/
  parseDec : String → Option AgentDecision
  /-- `tool_registry.get(name).is_some()`. -/
  hasTool : String → Bool
  /-- The result of `tool_executor.execute(tool, input)` at a given
  iteration (the executor always returns `Ok` in the source, but the loop
  matches on `Err` too, so the model keeps `Except`). -/
  execTool : Nat → String → Json → Except String ToolResult
  /-- `tool_registry.tools_description()`. -/
  toolsDescription : String
  /-- `serde_json::to_string(&AgentDecision)` (`none` models `Err`). -/
  serializeDec : AgentDecision → Option String
  /-- `serde_json::to_string_pretty(&Value)` for the context block. -/
  serializeJsonPretty : Json → Option String
  /-- `serde_json::to_string(&Value)` for `input_size`. -/
  serializeJson : Json → Option String
  /-- `start_time.elapsed().as_millis()` at response construction. -/
  elapsedMs : Nat
  /-- `tool_start.elapsed().as_millis()` per iteration. -/
  toolDurationMs : Nat → Nat

/-- `think` precomposed with the LLM call (agent_actor.rs lines 361-366,
specialized_agent.rs lines 494-495): a chat failure propagates, then the
three-tier parse runs on the returned text. -/
def envThink (env : LoopEnv) (conversation : List ChatMessage) :
    Except String (Option AgentDecision) :=
  match env.chat conversation with
  | .error e => .error e
  | .ok response => .ok (thinkParseStandalone env.parseDec response)

/-- The system prompt of `run_react_loop` (agent_actor.rs lines 136-159). -/
def reactSystemPrompt (toolsDescription : String) : String :=
  "You are an autonomous agent that can use tools to accomplish tasks.\n\n" ++
  "Available Tools:\n" ++ toolsDescription ++ "\n\n" ++
  "IMPORTANT: You MUST respond in this EXACT JSON format:\n" ++
  "\x7b\n  \"thought\": \"your reasoning about what to do next\",\n  " ++
  "\"action\": \x7b\"tool\": \"tool_name\", \"input\": \x7b\"param\": \"value\"\x7d\x7d,\n  " ++
  "\"is_final\": false,\n  \"final_answer\": null\n\x7d\n\n" ++
  "When the task is COMPLETE:\n- Set \"is_final\": true\n- Set \"action\": null\n" ++
  "- Provide a clear \"final_answer\" summarizing what you accomplished\n\n" ++
  "CRITICAL: A task is COMPLETE when:\n" ++
  "1. You have successfully executed all required tools AND received their results\n" ++
  "2. You have the information/result requested by the user\n" ++
  "3. No further actions are needed to satisfy the user's request\n\n" ++
  "After each tool execution, check: Does the observation contain what the user asked for?\n" ++
  "If YES, immediately set is_final=true and provide the final_answer.\n" ++
  "Do NOT repeat the same action if you already have the result.\n\n" ++
  "Always respond with valid JSON only. No extra text."

/-- The observation prompt shared by the loops (agent_actor.rs lines
278-286; the specialized variant splices an urgency note after the
observation). -/
def observationPrompt (observation urgency : String) : String :=
  "Observation: " ++ observation ++ urgency ++
  "\n\nDoes this observation contain the answer to the original task? " ++
  "If yes, set is_final=true and provide final_answer. " ++
  "If no, what is the next action needed?"

/-- The Timeout response of `run_react_loop` (agent_actor.rs lines
343-358), `progress = min(observed_steps / max_iterations, 0.9)`. -/
def reactTimeoutResp (maxIterations : Nat) (steps : List AgentStep) : AgentResponse :=
  let progress : ℚ :=
    if steps.isEmpty then 0
    else min (((steps.filter (fun s => s.observation.isSome)).length : ℚ) /
      (maxIterations : ℚ)) (9 / 10)
  .timeout "Max iterations reached without completing task" steps none
    (some (.partialStatus progress ["Increase max_iterations or simplify task"]))

/-- The loop body of `run_react_loop` (agent_actor.rs lines 171-341):
`iteration` is the loop counter, `fuel = max_iterations - iteration`. -/
def reactGo (env : LoopEnv) (maxIterations : Nat) :
    Nat → Nat → List AgentStep → List ChatMessage → Option AgentResponse
  | 0, _, steps, _ => some (reactTimeoutResp maxIterations steps)
  | fuel + 1, iteration, steps, history =>
    match envThink env history with
    | .error e =>
      some (.failure ("Failed to reason: " ++ e) steps none
        (some (.failed ("LLM reasoning failed: " ++ e) true)))
    | .ok none => none
    | .ok (some decision) =>
      if decision.isFinal then
        let finalAnswer := decision.finalAnswer.getD "Task completed without explicit answer"
        some (.success finalAnswer
          (steps ++ [⟨iteration, decision.thought, none, some finalAnswer⟩])
          none (some (.complete 1)))
      else
        match decision.action with
        | some action =>
          if env.hasTool action.tool then
            match env.execTool iteration action.tool action.input with
            | .error e =>
              let errorMsg := "Tool execution failed: " ++ e
              reactGo env maxIterations fuel (iteration + 1)
                (steps ++ [⟨iteration, decision.thought, some action.tool, some errorMsg⟩])
                (history ++ [⟨"assistant", errorMsg⟩])
            | .ok toolResult =>
              let observation :=
                if toolResult.success then toolResult.output
                else "Tool failed: " ++ toolResult.error.getD ""
              let assistantMsg :=
                (env.serializeDec ⟨decision.thought, some action, false, none⟩).getD
                  ("Action: " ++ action.tool)
              reactGo env maxIterations fuel (iteration + 1)
                (steps ++ [⟨iteration, decision.thought, some action.tool, some observation⟩])
                (history ++ [⟨"assistant", assistantMsg⟩,
                  ⟨"user", observationPrompt observation ""⟩])
          else
            let errorMsg := "Tool '" ++ action.tool ++ "' not found"
            reactGo env maxIterations fuel (iteration + 1)
              (steps ++ [⟨iteration, decision.thought, some action.tool, some errorMsg⟩])
              (history ++ [⟨"assistant", "Error: " ++ errorMsg⟩])
        | none =>
          if ¬ steps.isEmpty ∧ steps.any (fun s => s.observation.isSome) then
            let result :=
              if decision.thought ≠ "" then decision.thought
              else (steps.getLast?.bind (·.observation)).getD "Task completed"
            some (.success result
              (steps ++
                [⟨iteration, "Task completed based on previous observations", none, some result⟩])
              none (some (.complete (4 / 5))))
          else
            let errorMsg := "No action specified and no prior progress"
            reactGo env maxIterations fuel (iteration + 1)
              (steps ++ [⟨iteration, decision.thought, none, some errorMsg⟩])
              (history ++ [⟨"assistant", errorMsg⟩])

/-- `run_react_loop(llm_client, tool_registry, tool_executor, task,
max_iterations)`. -/
def runReactLoop (env : LoopEnv) (task : String) (maxIterations : Nat) :
    Option AgentResponse :=
  reactGo env maxIterations maxIterations 0 []
    [⟨"system", reactSystemPrompt env.toolsDescription⟩, ⟨"user", "Task: " ++ task⟩]

/-! ## SpecializedAgent (`src/src/actors/specialized_agent.rs`) -/

/-- `SpecializedAgentConfig` (the tool objects themselves live in the
environment). -/
structure SpecializedAgentConfig where
  name : String
  description : String
  systemPrompt : String
  responseSchema : Option Json
  returnToolOutput : Bool

/-- The context block of the specialized system prompt
(specialized_agent.rs lines 146-155). -/
def specContextSection (env : LoopEnv) : Option Json → String
  | some ctx =>
    "\n\nCONTEXT DATA (use this in your tool calls):\n```json\n" ++
    ((env.serializeJsonPretty ctx).getD "\x7b\x7d") ++ "\n```\n" ++
    "The context contains structured data from previous steps. " ++
    "You can reference fields from this data when calling tools."
  | none => ""

/-- The specialized system prompt (specialized_agent.rs lines 157-183). -/
def specSystemPrompt (systemPrompt toolsDescription contextSection : String)
    (maxIterations : Nat) : String :=
  systemPrompt ++ "\n\nAvailable Tools:\n" ++ toolsDescription ++ contextSection ++
  "\n\nIMPORTANT: You have a maximum of " ++ toString maxIterations ++
  " iterations to complete this task.\n" ++
  "You MUST respond in this EXACT JSON format:\n" ++
  "\x7b\n  \"thought\": \"your reasoning about what to do next\",\n  " ++
  "\"action\": \x7b\"tool\": \"tool_name\", \"input\": \x7b\"param\": \"value\"\x7d\x7d,\n  " ++
  "\"is_final\": false,\n  \"final_answer\": null\n\x7d\n\n" ++
  "When the task is COMPLETE:\n- Set \"is_final\": true\n- Set \"action\": null\n" ++
  "- Provide a clear \"final_answer\" summarizing what you accomplished\n\n" ++
  "CRITICAL: A task is COMPLETE when:\n" ++
  "1. You have successfully executed all required tools AND received their results\n" ++
  "2. You have the information/result requested by the user\n" ++
  "3. No further actions are needed to satisfy the user's request\n\n" ++
  "After each tool execution, check: Does the observation contain what the user asked for?\n" ++
  "If YES, immediately set is_final=true and provide the final_answer.\n" ++
  "Do NOT repeat the same action if you already have the result.\n\n" ++
  "Always respond with valid JSON only. No extra text."

/-- The urgency note appended to observations (specialized_agent.rs lines
365-373). -/
def specUrgencyMsg (remainingAfterThis : Nat) : String :=
  if remainingAfterThis ≤ 2 then
    "\n\nWARNING: Only " ++ toString remainingAfterThis ++
    " iterations remaining! You must complete the task soon or provide a final answer with what you have."
  else
    "\n\nYou have " ++ toString remainingAfterThis ++ " iterations remaining."

/-- Output metadata as constructed by the specialized loop. -/
def specMetadata (env : LoopEnv) (cfg : SpecializedAgentConfig) (confidence : ℚ)
    (toolCalls : List ToolCallMetadata) : OutputMetadata :=
  { OutputMetadata.default with
      confidence := confidence, executionTimeMs := env.elapsedMs,
      agentName := some cfg.name, toolCalls := toolCalls }

/-- The loop body of `SpecializedAgent::execute_task_with_context`
(specialized_agent.rs lines 195-463) with its extra state: per-call tool
metadata and the last successful tool output. -/
def specGo (env : LoopEnv) (cfg : SpecializedAgentConfig) (maxIterations : Nat) :
    Nat → Nat → List AgentStep → List ToolCallMetadata → Option String → List ChatMessage →
      Option AgentResponse
  | 0, _, steps, toolCalls, _, _ =>
    let progress : ℚ :=
      if steps.isEmpty then 0
      else min (((steps.filter (fun s => s.observation.isSome)).length : ℚ) /
        (maxIterations : ℚ)) (9 / 10)
    some (.timeout "Max iterations reached without completing task" steps
      (some (specMetadata env cfg progress toolCalls))
      (some (.partialStatus progress ["Increase max_iterations or simplify task"])))
  | fuel + 1, iteration, steps, toolCalls, lastToolOutput, history =>
    match envThink env history with
    | .error e =>
      some (.failure ("Failed to reason: " ++ e) steps none
        (some (.failed ("LLM reasoning failed: " ++ e) true)))
    | .ok none => none
    | .ok (some decision) =>
      if decision.isFinal then
        let finalAnswer :=
          if cfg.returnToolOutput then
            match lastToolOutput with
            | some toolOutput => toolOutput
            | none => decision.finalAnswer.getD "Task completed without tool output"
          else decision.finalAnswer.getD "Task completed without explicit answer"
        some (.success finalAnswer
          (steps ++ [⟨iteration, decision.thought, none, some finalAnswer⟩])
          (some (specMetadata env cfg 1 toolCalls))
          (some (.complete 1)))
      else
        match decision.action with
        | some action =>
          if env.hasTool action.tool then
            let inputSize := ((env.serializeJson action.input).getD "").utf8ByteSize
            match env.execTool iteration action.tool action.input with
            | .error e =>
              let errorMsg := "Tool execution failed: " ++ e
              specGo env cfg maxIterations fuel (iteration + 1)
                (steps ++ [⟨iteration, decision.thought, some action.tool, some errorMsg⟩])
                (toolCalls ++ [⟨action.tool, inputSize, errorMsg.utf8ByteSize,
                  env.toolDurationMs iteration, false⟩])
                lastToolOutput
                (history ++ [⟨"assistant", errorMsg⟩])
            | .ok toolResult =>
              let toolCalls' := toolCalls ++ [⟨action.tool, inputSize,
                toolResult.output.utf8ByteSize, env.toolDurationMs iteration,
                toolResult.success⟩]
              let observation :=
                if toolResult.success then toolResult.output
                else "Tool failed: " ++ toolResult.error.getD ""
              let lastToolOutput' :=
                if toolResult.success then some toolResult.output else lastToolOutput
              let assistantMsg :=
                (env.serializeDec ⟨decision.thought, some action, false, none⟩).getD
                  ("Action: " ++ action.tool)
              specGo env cfg maxIterations fuel (iteration + 1)
                (steps ++ [⟨iteration, decision.thought, some action.tool, some observation⟩])
                toolCalls' lastToolOutput'
                (history ++ [⟨"assistant", assistantMsg⟩,
                  ⟨"user", observationPrompt observation
                    (specUrgencyMsg (maxIterations - iteration - 1))⟩])
          else
            let errorMsg := "Tool '" ++ action.tool ++ "' not found"
            specGo env cfg maxIterations fuel (iteration + 1)
              (steps ++ [⟨iteration, decision.thought, some action.tool, some errorMsg⟩])
              toolCalls lastToolOutput
              (history ++ [⟨"assistant", "Error: " ++ errorMsg⟩])
        | none =>
          if ¬ steps.isEmpty ∧ steps.any (fun s => s.observation.isSome) then
            let result :=
              if cfg.returnToolOutput then
                match lastToolOutput with
                | some toolOutput => toolOutput
                | none => (steps.getLast?.bind (·.observation)).getD "Task completed"
              else if decision.thought ≠ "" then decision.thought
              else (steps.getLast?.bind (·.observation)).getD "Task completed"
            some (.success result
              (steps ++
                [⟨iteration, "Task completed based on previous observations", none, some result⟩])
              (some (specMetadata env cfg (4 / 5) toolCalls))
              (some (.complete (4 / 5))))
          else
            let errorMsg := "No action specified and no prior progress"
            specGo env cfg maxIterations fuel (iteration + 1)
              (steps ++ [⟨iteration, decision.thought, none, some errorMsg⟩])
              toolCalls lastToolOutput
              (history ++ [⟨"assistant", errorMsg⟩])

/-- `SpecializedAgent::execute_task_with_context(task, context,
max_iterations)`. -/
def specExecuteTaskWithContext (env : LoopEnv) (cfg : SpecializedAgentConfig)
    (task : String) (context : Option Json) (maxIterations : Nat) :
    Option AgentResponse :=
  specGo env cfg maxIterations maxIterations 0 [] [] none
    [⟨"system", specSystemPrompt cfg.systemPrompt env.toolsDescription
        (specContextSection env context) maxIterations⟩,
     ⟨"user", "Task: " ++ task⟩]

/-! ## Claim C5: step bounds of the ReAct loops -/

/-- Pushing one step carrying the current iteration index preserves the
loop invariant. -/
theorem stepsInv_push {iter : Nat} {steps : List AgentStep} (s : AgentStep)
    (hlen : steps.length ≤ iter)
    (hsort : List.Sorted (· ≤ ·) (steps.map AgentStep.iteration))
    (hlt : ∀ t ∈ steps, t.iteration < iter)
    (hs : s.iteration = iter) :
    (steps ++ [s]).length ≤ iter + 1 ∧
    List.Sorted (· ≤ ·) ((steps ++ [s]).map AgentStep.iteration) ∧
    ∀ t ∈ steps ++ [s], t.iteration < iter + 1 := by
  refine ⟨by simpa using Nat.add_le_add_right hlen 1, ?_, ?_⟩
  · rw [List.map_append]
    refine List.pairwise_append.mpr ⟨hsort, by simp, ?_⟩
    intro x hx y hy
    obtain ⟨t, ht, rfl⟩ := List.mem_map.mp hx
    simp only [List.map_cons, List.map_nil, List.mem_singleton] at hy
    subst hy
    rw [hs]
    exact le_of_lt (hlt t ht)
  · intro t ht
    rcases List.mem_append.mp ht with h | h
    · exact Nat.lt_succ_of_lt (hlt t h)
    · rw [List.mem_singleton.mp h, hs]; exact Nat.lt_succ_self iter

/-- Weakening the loop invariant from the current counter to the bound. -/
theorem stepsInv_mono {N iter : Nat} {steps : List AgentStep}
    (hiter : iter ≤ N) (hlen : steps.length ≤ iter)
    (hsort : List.Sorted (· ≤ ·) (steps.map AgentStep.iteration))
    (hlt : ∀ t ∈ steps, t.iteration < iter) :
    steps.length ≤ N ∧ List.Sorted (· ≤ ·) (steps.map AgentStep.iteration) ∧
      ∀ t ∈ steps, t.iteration < N :=
  ⟨le_trans hlen hiter, hsort, fun t ht => lt_of_lt_of_le (hlt t ht) hiter⟩

/-- Invariant of `reactGo`: any returned response carries at most `N`
steps, with non-decreasing iteration indices all below `N`. -/
theorem reactGo_bounds (env : LoopEnv) (N : Nat) :
    ∀ (fuel iter : Nat) (steps : List AgentStep) (history : List ChatMessage)
      (resp : AgentResponse),
      iter + fuel ≤ N → steps.length ≤ iter →
      List.Sorted (· ≤ ·) (steps.map AgentStep.iteration) →
      (∀ t ∈ steps, t.iteration < iter) →
      reactGo env N fuel iter steps history = some resp →
      resp.steps.length ≤ N ∧
        List.Sorted (· ≤ ·) (resp.steps.map AgentStep.iteration) ∧
        ∀ t ∈ resp.steps, t.iteration < N := by
  intro fuel
  induction fuel with
  | zero =>
    intro iter steps history resp hN hlen hsort hlt heq
    simp only [reactGo] at heq
    injection heq with heq
    subst heq
    exact stepsInv_mono (show iter ≤ N by omega) hlen hsort hlt
  | succ fuel ih =>
    intro iter steps history resp hN hlen hsort hlt heq
    have hiter1 : iter + 1 ≤ N := by omega
    simp only [reactGo] at heq
    split at heq
    · injection heq with heq
      subst heq
      exact stepsInv_mono (show iter ≤ N by omega) hlen hsort hlt
    · exact absurd heq (by simp)
    · rename_i d
      split at heq
      · injection heq with heq
        subst heq
        refine stepsInv_mono hiter1 ?_ ?_ ?_
        · exact (stepsInv_push _ hlen hsort hlt rfl).1
        · exact (stepsInv_push _ hlen hsort hlt rfl).2.1
        · exact (stepsInv_push _ hlen hsort hlt rfl).2.2
      · split at heq
        · split at heq
          · split at heq
            · refine ih (iter + 1) _ _ resp (by omega) ?_ ?_ ?_ heq
              · exact (stepsInv_push _ hlen hsort hlt rfl).1
              · exact (stepsInv_push _ hlen hsort hlt rfl).2.1
              · exact (stepsInv_push _ hlen hsort hlt rfl).2.2
            · refine ih (iter + 1) _ _ resp (by omega) ?_ ?_ ?_ heq
              · exact (stepsInv_push _ hlen hsort hlt rfl).1
              · exact (stepsInv_push _ hlen hsort hlt rfl).2.1
              · exact (stepsInv_push _ hlen hsort hlt rfl).2.2
          · refine ih (iter + 1) _ _ resp (by omega) ?_ ?_ ?_ heq
            · exact (stepsInv_push _ hlen hsort hlt rfl).1
            · exact (stepsInv_push _ hlen hsort hlt rfl).2.1
            · exact (stepsInv_push _ hlen hsort hlt rfl).2.2
        · split at heq
          · injection heq with heq
            subst heq
            refine stepsInv_mono hiter1 ?_ ?_ ?_
            · exact (stepsInv_push _ hlen hsort hlt rfl).1
            · exact (stepsInv_push _ hlen hsort hlt rfl).2.1
            · exact (stepsInv_push _ hlen hsort hlt rfl).2.2
          · refine ih (iter + 1) _ _ resp (by omega) ?_ ?_ ?_ heq
            · exact (stepsInv_push _ hlen hsort hlt rfl).1
            · exact (stepsInv_push _ hlen hsort hlt rfl).2.1
            · exact (stepsInv_push _ hlen hsort hlt rfl).2.2

/-- Invariant of `specGo`: same step bounds as `reactGo`. -/
theorem specGo_bounds (env : LoopEnv) (cfg : SpecializedAgentConfig) (N : Nat) :
    ∀ (fuel iter : Nat) (steps : List AgentStep) (toolCalls : List ToolCallMetadata)
      (lastOut : Option String) (history : List ChatMessage) (resp : AgentResponse),
      iter + fuel ≤ N → steps.length ≤ iter →
      List.Sorted (· ≤ ·) (steps.map AgentStep.iteration) →
      (∀ t ∈ steps, t.iteration < iter) →
      specGo env cfg N fuel iter steps toolCalls lastOut history = some resp →
      resp.steps.length ≤ N ∧
        List.Sorted (· ≤ ·) (resp.steps.map AgentStep.iteration) ∧
        ∀ t ∈ resp.steps, t.iteration < N := by
  intro fuel
  induction fuel with
  | zero =>
    intro iter steps toolCalls lastOut history resp hN hlen hsort hlt heq
    simp only [specGo] at heq
    injection heq with heq
    subst heq
    exact stepsInv_mono (show iter ≤ N by omega) hlen hsort hlt
  | succ fuel ih =>
    intro iter steps toolCalls lastOut history resp hN hlen hsort hlt heq
    have hiter1 : iter + 1 ≤ N := by omega
    simp only [specGo] at heq
    split at heq
    · injection heq with heq
      subst heq
      exact stepsInv_mono (show iter ≤ N by omega) hlen hsort hlt
    · exact absurd heq (by simp)
    · rename_i d
      split at heq
      · injection heq with heq
        subst heq
        refine stepsInv_mono hiter1 ?_ ?_ ?_
        · exact (stepsInv_push _ hlen hsort hlt rfl).1
        · exact (stepsInv_push _ hlen hsort hlt rfl).2.1
        · exact (stepsInv_push _ hlen hsort hlt rfl).2.2
      · split at heq
        · split at heq
          · split at heq
            · refine ih (iter + 1) _ _ _ _ resp (by omega) ?_ ?_ ?_ heq
              · exact (stepsInv_push _ hlen hsort hlt rfl).1
              · exact (stepsInv_push _ hlen hsort hlt rfl).2.1
              · exact (stepsInv_push _ hlen hsort hlt rfl).2.2
            · refine ih (iter + 1) _ _ _ _ resp (by omega) ?_ ?_ ?_ heq
              · exact (stepsInv_push _ hlen hsort hlt rfl).1
              · exact (stepsInv_push _ hlen hsort hlt rfl).2.1
              · exact (stepsInv_push _ hlen hsort hlt rfl).2.2
          · refine ih (iter + 1) _ _ _ _ resp (by omega) ?_ ?_ ?_ heq
            · exact (stepsInv_push _ hlen hsort hlt rfl).1
            · exact (stepsInv_push _ hlen hsort hlt rfl).2.1
            · exact (stepsInv_push _ hlen hsort hlt rfl).2.2
        · split at heq
          · injection heq with heq
            subst heq
            refine stepsInv_mono hiter1 ?_ ?_ ?_
            · exact (stepsInv_push _ hlen hsort hlt rfl).1
            · exact (stepsInv_push _ hlen hsort hlt rfl).2.1
            · exact (stepsInv_push _ hlen hsort hlt rfl).2.2
          · refine ih (iter + 1) _ _ _ _ resp (by omega) ?_ ?_ ?_ heq
            · exact (stepsInv_push _ hlen hsort hlt rfl).1
            · exact (stepsInv_push _ hlen hsort hlt rfl).2.1
            · exact (stepsInv_push _ hlen hsort hlt rfl).2.2

/-- C5: with `max_iterations = N ≥ 1`, any response returned by either
ReAct loop carries at most `N` steps, whose iteration indices are
non-decreasing and strictly below `N` (in particular a Timeout is only
returned after at most `N` emitted steps). -/
theorem react_loop_step_bounds (N : Nat) (_hN : 1 ≤ N) :
    (∀ (env : LoopEnv) (task : String) (resp : AgentResponse),
        runReactLoop env task N = some resp →
        resp.steps.length ≤ N ∧
          List.Sorted (· ≤ ·) (resp.steps.map AgentStep.iteration) ∧
          ∀ t ∈ resp.steps, t.iteration < N) ∧
    (∀ (env : LoopEnv) (cfg : SpecializedAgentConfig) (task : String)
        (context : Option Json) (resp : AgentResponse),
        specExecuteTaskWithContext env cfg task context N = some resp →
        resp.steps.length ≤ N ∧
          List.Sorted (· ≤ ·) (resp.steps.map AgentStep.iteration) ∧
          ∀ t ∈ resp.steps, t.iteration < N) := by
  constructor
  · intro env task resp heq
    exact reactGo_bounds env N N 0 [] _ resp (by omega) (by simp) (by simp)
      (by simp) heq
  · intro env cfg task context resp heq
    exact specGo_bounds env cfg N N 0 [] [] none _ resp (by omega) (by simp) (by simp)
      (by simp) heq

/-- An environment whose LLM transport fails immediately. -/
def envLLMDown : LoopEnv :=
  { chat := fun _ => .error "down", parseDec := fun _ => none,
    hasTool := fun _ => false, execTool := fun _ _ _ => .error "no tool",
    toolsDescription := "", serializeDec := fun _ => none,
    serializeJsonPretty := fun _ => none, serializeJson := fun _ => none,
    elapsedMs := 0, toolDurationMs := fun _ => 0 }

/-- Witness for `react_loop_step_bounds` at `N = 2` on a concrete run. -/
theorem react_loop_step_bounds_witness :
    ∃ resp, runReactLoop envLLMDown "t" 2 = some resp ∧
      resp.steps.length ≤ 2 ∧
      List.Sorted (· ≤ ·) (resp.steps.map AgentStep.iteration) ∧
      ∀ t ∈ resp.steps, t.iteration < 2 := by
  refine ⟨.failure "Failed to reason: down" [] none
    (some (.failed "LLM reasoning failed: down" true)), rfl, ?_⟩
  exact (react_loop_step_bounds 2 (by omega)).1 envLLMDown "t" _ rfl

/-! ## Claim C6: `return_tool_output` substitution -/

/-- A specialized-agent configuration with the given
`return_tool_output` flag. -/
def cfgC6 (returnToolOutput : Bool) : SpecializedAgentConfig :=
  { name := "data_agent", description := "d", systemPrompt := "sp",
    responseSchema := none, returnToolOutput := returnToolOutput }

/-- Scenario environment: the LLM invokes tool `t` twice (the tool
succeeds with `o1`, then `o2`), then emits `is_final = true` with
`final_answer = a`. -/
def envC6 (o1 o2 a : String) : LoopEnv :=
  { chat := fun h =>
      if h.length == 2 then .ok "D0" else if h.length == 4 then .ok "D1" else .ok "D2",
    parseDec := fun s =>
      if s = "D0" then some ⟨"think0", some ⟨"t", Json.null⟩, false, none⟩
      else if s = "D1" then some ⟨"think1", some ⟨"t", Json.null⟩, false, none⟩
      else if s = "D2" then some ⟨"done", none, true, some a⟩
      else none,
    hasTool := fun n => n == "t",
    execTool := fun iter _ _ =>
      if iter == 0 then .ok (ToolResult.mkSuccess o1) else .ok (ToolResult.mkSuccess o2),
    toolsDescription := "t", serializeDec := fun _ => none,
    serializeJsonPretty := fun _ => none, serializeJson := fun _ => none,
    elapsedMs := 7, toolDurationMs := fun _ => 1 }

/-- Scenario environment without a successful tool call: one failing tool
invocation, then the final answer `a`. -/
def envC6fail (a : String) : LoopEnv :=
  { envC6 "x" "y" a with
    chat := fun h => if h.length == 2 then .ok "D0" else .ok "D2",
    execTool := fun _ _ _ => .ok (ToolResult.mkFailure "boom") }

/-- C6: universal `return_tool_output` substitution over `specGo`.
(1) In any loop state, when the decision read is final and
`return_tool_output = true`, the Success result is the tracked last
successful tool output when one exists, and falls back to the LLM's
`final_answer` otherwise.  (2) A successful tool call sets that tracked
output to the call's raw output, so it always holds the raw output of the
run's last successful tool call.  (3) A failed tool call leaves it
unchanged.  (4) End-to-end instances: two successful calls then final
returns `o2` (not the answer `a`), including the spec's
`{"status":"ok"}`/"Done!" example; no successful call falls back to `a`;
flag off returns `a`. -/
theorem return_tool_output_substitution :
    (∀ (env : LoopEnv) (cfg : SpecializedAgentConfig) (N fuel iter : Nat)
        (steps : List AgentStep) (toolCalls : List ToolCallMetadata)
        (lastOut : Option String) (history : List ChatMessage)
        (decision : AgentDecision),
      envThink env history = .ok (some decision) →
      decision.isFinal = true →
      cfg.returnToolOutput = true →
      specGo env cfg N (fuel + 1) iter steps toolCalls lastOut history =
        some (.success
          (match lastOut with
           | some toolOutput => toolOutput
           | none => decision.finalAnswer.getD "Task completed without tool output")
          (steps ++ [⟨iter, decision.thought, none,
            some (match lastOut with
              | some toolOutput => toolOutput
              | none => decision.finalAnswer.getD "Task completed without tool output")⟩])
          (some (specMetadata env cfg 1 toolCalls))
          (some (.complete 1)))) ∧
    (∀ (env : LoopEnv) (cfg : SpecializedAgentConfig) (N fuel iter : Nat)
        (steps : List AgentStep) (toolCalls : List ToolCallMetadata)
        (lastOut : Option String) (history : List ChatMessage)
        (decision : AgentDecision) (action : AgentAction) (tr : ToolResult),
      envThink env history = .ok (some decision) →
      decision.isFinal = false →
      decision.action = some action →
      env.hasTool action.tool = true →
      env.execTool iter action.tool action.input = .ok tr →
      tr.success = true →
      specGo env cfg N (fuel + 1) iter steps toolCalls lastOut history =
        specGo env cfg N fuel (iter + 1)
          (steps ++ [⟨iter, decision.thought, some action.tool, some tr.output⟩])
          (toolCalls ++ [⟨action.tool,
            ((env.serializeJson action.input).getD "").utf8ByteSize,
            tr.output.utf8ByteSize, env.toolDurationMs iter, tr.success⟩])
          (some tr.output)
          (history ++ [⟨"assistant",
            (env.serializeDec ⟨decision.thought, some action, false, none⟩).getD
              ("Action: " ++ action.tool)⟩,
            ⟨"user", observationPrompt tr.output (specUrgencyMsg (N - iter - 1))⟩])) ∧
    (∀ (env : LoopEnv) (cfg : SpecializedAgentConfig) (N fuel iter : Nat)
        (steps : List AgentStep) (toolCalls : List ToolCallMetadata)
        (lastOut : Option String) (history : List ChatMessage)
        (decision : AgentDecision) (action : AgentAction) (tr : ToolResult),
      envThink env history = .ok (some decision) →
      decision.isFinal = false →
      decision.action = some action →
      env.hasTool action.tool = true →
      env.execTool iter action.tool action.input = .ok tr →
      tr.success = false →
      specGo env cfg N (fuel + 1) iter steps toolCalls lastOut history =
        specGo env cfg N fuel (iter + 1)
          (steps ++ [⟨iter, decision.thought, some action.tool,
            some ("Tool failed: " ++ tr.error.getD "")⟩])
          (toolCalls ++ [⟨action.tool,
            ((env.serializeJson action.input).getD "").utf8ByteSize,
            tr.output.utf8ByteSize, env.toolDurationMs iter, tr.success⟩])
          lastOut
          (history ++ [⟨"assistant",
            (env.serializeDec ⟨decision.thought, some action, false, none⟩).getD
              ("Action: " ++ action.tool)⟩,
            ⟨"user", observationPrompt ("Tool failed: " ++ tr.error.getD "")
              (specUrgencyMsg (N - iter - 1))⟩])) ∧
    (∀ (o1 o2 a : String),
      ((specExecuteTaskWithContext (envC6 o1 o2 a) (cfgC6 true) "task" none 5).map
        AgentResponse.isSuccess = some true) ∧
      ((specExecuteTaskWithContext (envC6 o1 o2 a) (cfgC6 true) "task" none 5).map
        AgentResponse.primary = some o2) ∧
      ((specExecuteTaskWithContext (envC6fail a) (cfgC6 true) "task" none 5).map
        AgentResponse.primary = some a) ∧
      ((specExecuteTaskWithContext (envC6 o1 o2 a) (cfgC6 false) "task" none 5).map
        AgentResponse.primary = some a) ∧
      ((specExecuteTaskWithContext (envC6 "x" "\x7b\"status\":\"ok\"\x7d" "Done!")
          (cfgC6 true) "task" none 5).map AgentResponse.primary =
        some "\x7b\"status\":\"ok\"\x7d")) := by
  refine ⟨?_, ?_, ?_, ?_⟩
  · intro env cfg N fuel iter steps toolCalls lastOut history decision henv hfin hrto
    simp only [specGo, henv, hfin, if_true, hrto]
  · intro env cfg N fuel iter steps toolCalls lastOut history decision action tr
      henv hfin hact htool hexec hsucc
    simp only [specGo, henv, hfin, Bool.false_eq_true, if_false, hact, htool, if_true,
      hexec, hsucc]
  · intro env cfg N fuel iter steps toolCalls lastOut history decision action tr
      henv hfin hact htool hexec hsucc
    simp only [specGo, henv, hfin, Bool.false_eq_true, if_false, hact, htool, if_true,
      hexec, hsucc]
  · intro o1 o2 a
    refine ⟨rfl, rfl, rfl, rfl, rfl⟩

/-- Witness for `return_tool_output_substitution`: a state that tracked
the tool output `"o2"` reads a final decision and returns `"o2"`. -/
theorem return_tool_output_substitution_witness :
    specGo (envC6 "o1" "o2" "a") (cfgC6 true) 5 1 2 [] [] (some "o2")
      (List.replicate 6 ⟨"x", "y"⟩) =
      some (.success "o2" [⟨2, "done", none, some "o2"⟩]
        (some (specMetadata (envC6 "o1" "o2" "a") (cfgC6 true) 1 []))
        (some (.complete 1))) := by
  have h := return_tool_output_substitution.1 (envC6 "o1" "o2" "a") (cfgC6 true) 5 0 2
    [] [] (some "o2") (List.replicate 6 ⟨"x", "y"⟩) ⟨"done", none, true, some "a"⟩
    rfl rfl rfl
  exact h

/-! ## SupervisorAgent (`src/src/actors/supervisor_agent.rs`)

`TaskProgress` and the orchestration loop.  `orchestrate` is embedded as
a step function `orchestrateStep` (the body of the
`for step in 0..max_orchestration_steps` loop) driven by
`orchestrateGo`, so intermediate states are first-class.  The `f32`
percentage/confidence formatting (`{:.0}` / `{:.2}`) is modelled over
rationals with round-to-nearest (ties differ from Rust only at exact
halves, which no claim exercises). -/

/-- `SubGoalDeclaration` from supervisor_agent.rs. -/
structure SubGoalDeclaration where
  id : String
  description : String

/-- `SupervisorDecision` from supervisor_agent.rs. -/
structure SupervisorDecision where
  thought : String
  subGoals : Option (List SubGoalDeclaration)
  agentToInvoke : Option String
  agentTask : Option String
  subGoalId : Option String
  isFinal : Bool
  finalAnswer : Option String

/-- `SubGoalStatus` from supervisor_agent.rs. -/
inductive SubGoalStatus where
  | pending
  | inProgress
  | completed
  | failed
deriving DecidableEq

/-- `SubGoal` from supervisor_agent.rs. -/
structure SubGoal where
  id : String
  description : String
  status : SubGoalStatus
  assignedAgent : Option String
  result : Option String
deriving DecidableEq

/-- `TaskProgress` from supervisor_agent.rs. -/
structure TaskProgress where
  subGoals : List SubGoal
  completedCount : Nat
  failedCount : Nat
deriving DecidableEq

/-- `TaskProgress::new()`. -/
def TaskProgress.new : TaskProgress :=
  { subGoals := [], completedCount := 0, failedCount := 0 }

/-- `TaskProgress::add_sub_goal`. -/
def TaskProgress.addSubGoal (p : TaskProgress) (id description : String) : TaskProgress :=
  { p with subGoals := p.subGoals ++
      [{ id := id, description := description, status := .pending,
         assignedAgent := none, result := none }] }

/-- Apply `f` to the first goal whose id matches (the
`iter_mut().find(|g| g.id == id)` pattern); `none` when no goal matches. -/
def markFirst (f : SubGoal → SubGoal) (id : String) : List SubGoal → Option (List SubGoal)
  | [] => none
  | g :: rest =>
    if g.id = id then some (f g :: rest)
    else (markFirst f id rest).map (g :: ·)

/-- `TaskProgress::mark_in_progress`. -/
def TaskProgress.markInProgress (p : TaskProgress) (id agent : String) : TaskProgress :=
  match markFirst (fun g => { g with status := .inProgress, assignedAgent := some agent })
      id p.subGoals with
  | some goals => { p with subGoals := goals }
  | none => p

/-- `TaskProgress::mark_completed` (note: the counter is incremented on
every matching call, even if the goal was already Completed). -/
def TaskProgress.markCompleted (p : TaskProgress) (id result : String) : TaskProgress :=
  match markFirst (fun g => { g with status := .completed, result := some result })
      id p.subGoals with
  | some goals =>
    { subGoals := goals, completedCount := p.completedCount + 1, failedCount := p.failedCount }
  | none => p

/-- `TaskProgress::mark_failed`. -/
def TaskProgress.markFailed (p : TaskProgress) (id error : String) : TaskProgress :=
  match markFirst (fun g => { g with status := .failed, result := some error })
      id p.subGoals with
  | some goals =>
    { subGoals := goals, completedCount := p.completedCount, failedCount := p.failedCount + 1 }
  | none => p

/-- `TaskProgress::progress_percentage`. -/
def TaskProgress.progressPercentage (p : TaskProgress) : ℚ :=
  if p.subGoals.isEmpty then 0
  else (p.completedCount : ℚ) / (p.subGoals.length : ℚ)

/-- `TaskProgress::is_complete`. -/
def TaskProgress.isComplete (p : TaskProgress) : Bool :=
  (¬ p.subGoals.isEmpty) && (p.completedCount == p.subGoals.length)

/-- Round-to-nearest on rationals, `⌊q + 1/2⌋` computed on the reduced
numerator/denominator (so it evaluates). -/
def ratRound (q : ℚ) : ℤ :=
  Int.fdiv (2 * q.num + (q.den : ℤ)) (2 * (q.den : ℤ))

/-- Rust `{:.0}` formatting of an `f32`, over rationals. -/
def fmtRat0 (q : ℚ) : String :=
  toString (ratRound q)

/-- Rust `{:.2}` formatting of a non-negative `f32`, over rationals. -/
def fmtRat2 (q : ℚ) : String :=
  let n : ℤ := ratRound (q * 100)
  toString (n / 100) ++ "." ++ (if n % 100 < 10 then "0" else "") ++ toString (n % 100)

/-- `TaskProgress::progress_summary`. -/
def TaskProgress.progressSummary (p : TaskProgress) : String :=
  "Progress: " ++ toString p.completedCount ++ "/" ++ toString p.subGoals.length ++
  " sub-goals completed (" ++ fmtRat0 (p.progressPercentage * 100) ++ "%), " ++
  toString p.failedCount ++ " failed"

/-- The per-status icon of `TaskProgress::detailed_status`. -/
def statusIcon : SubGoalStatus → String
  | .pending => "[ ]"
  | .inProgress => "[→]"
  | .completed => "[✓]"
  | .failed => "[✗]"

/-- `TaskProgress::detailed_status`. -/
def TaskProgress.detailedStatus (p : TaskProgress) : String :=
  "\nTask Progress (" ++ toString p.completedCount ++ "/" ++
  toString p.subGoals.length ++ "):\n" ++
  String.join (p.subGoals.map (fun g => "  " ++ statusIcon g.status ++ " " ++
    g.description ++ "\n"))

/-- External collaborators of `SupervisorAgent::orchestrate`. -/
structure SupEnv where
  /-- `LLMClient::chat`. -/
  chat : List ChatMessage → Except String String
  /-- `serde_json::from_str::<SupervisorDecision>`. -/
  parseSup : String → Option SupervisorDecision
  /-- `serde_json::to_string(&SupervisorDecision)` (`none` models `Err`). -/
  serializeSup : SupervisorDecision → Option String
  /-- `serde_json::from_str::<Value>` (context storing and handoff). -/
  parseJson : String → Option Json
  /-- The regex engine used by the attached validator. -/
  rc : String → Option (String → Bool)
  /-- The agent map: name → description (iteration order of
  `HashMap::values` is unspecified in Rust; the model fixes list order,
  which only affects prompt text). -/
  agents : List (String × String)
  /-- `agent.execute_task_with_context(task, context, max_iterations)` at
  a given orchestration step. -/
  agentExec : Nat → String → String → Option Json → AgentResponse
  /-- The optional `HandoffCoordinator`. -/
  handoff : Option HandoffCoordinator
  /-- `settings.agent.max_sub_goals`. -/
  maxSubGoals : Nat
  /-- `settings.agent.max_iterations` (forwarded to agents). -/
  maxIterations : Nat

/-- The parse fallback of `decide_next_action` (supervisor_agent.rs lines
807-820). -/
def supFallbackDecision (response : String) : SupervisorDecision :=
  { thought := response, subGoals := none, agentToInvoke := none, agentTask := none,
    subGoalId := none, isFinal := false, finalAnswer := none }

/-- `SupervisorAgent::decide_next_action` (supervisor_agent.rs lines
778-822): chat, strict parse, brace-extraction parse, raw-text fallback;
`ok none` models the extraction slice panic. -/
def decideNextAction (env : SupEnv) (conversation : List ChatMessage) :
    Except String (Option SupervisorDecision) :=
  match env.chat conversation with
  | .error e => .error e
  | .ok response =>
    .ok (match env.parseSup response with
      | some d => some d
      | none =>
        match braceExtract response with
        | .sub jsonStr =>
          match env.parseSup jsonStr with
          | some d => some d
          | none => some (supFallbackDecision response)
        | .noBraces => some (supFallbackDecision response)
        | .crash => none)

/-- The supervisor system prompt (supervisor_agent.rs lines 201-257). -/
def supervisorSystemPrompt (env : SupEnv) (maxOrchestrationSteps : Nat) : String :=
  "You are a supervisor that coordinates multiple specialized agents to accomplish complex tasks.\n\n" ++
  "Available Agents:\n" ++
  joinSep "\n" (env.agents.map (fun a => "- " ++ a.1 ++ ": " ++ a.2)) ++ "\n\n" ++
  "IMPORTANT LIMITS:\n- Maximum orchestration steps: " ++ toString maxOrchestrationSteps ++
  "\n- Maximum sub-goals to declare: " ++ toString env.maxSubGoals ++ "\n\n" ++
  "Your role is to:\n1. IN YOUR FIRST RESPONSE: Analyze the task and declare sub-goals upfront (max " ++
  toString env.maxSubGoals ++ ")\n" ++
  "2. IN SUBSEQUENT RESPONSES: Invoke appropriate agents to accomplish each sub-goal\n" ++
  "3. Track progress and combine results to provide a final answer\n\n" ++
  "CRITICAL - Passing Data Between Agents:\n" ++
  "- When an agent produces data that the next agent needs, you MUST include the complete data in the agent_task field\n" ++
  "- For example, if agent A returns JSON data and agent B needs to analyze it, set agent_task to: \"Analyze this data: \x7bthe actual JSON here\x7d\"\n" ++
  "- Do NOT just reference the data (\"use the data from step 1\") - include the actual data!\n" ++
  "- The agent_task is the ONLY information the agent receives - make it complete\n\n" ++
  "You MUST respond in this EXACT JSON format:\n" ++
  "\x7b\n  \"thought\": \"your reasoning about what to do next\",\n  " ++
  "\"sub_goals\": [\x7b\"id\": \"goal_1\", \"description\": \"...\"\x7d, ...] or null,\n  " ++
  "\"agent_to_invoke\": \"agent_name or null\",\n  " ++
  "\"agent_task\": \"specific task for the agent or null\",\n  " ++
  "\"sub_goal_id\": \"which sub-goal this addresses or null\",\n  " ++
  "\"is_final\": false,\n  \"final_answer\": null\n\x7d\n\n" ++
  "FIRST STEP (Planning):\n- Declare AT MOST " ++ toString env.maxSubGoals ++
  " sub-goals (prioritize the most important)\n" ++
  "- Set \"sub_goals\" to an array with ids like 'goal_1', 'goal_2', etc.\n" ++
  "- Set \"agent_to_invoke\" to the first agent you'll use\n" ++
  "- Set \"agent_task\" to the specific task for that agent\n" ++
  "- Set \"sub_goal_id\" to 'goal_1' (the first sub-goal)\n" ++
  "- Set \"is_final\" to false\n\n" ++
  "SUBSEQUENT STEPS (Execution):\n- Set \"sub_goals\" to null (only declare once)\n" ++
  "- Set \"agent_to_invoke\" to the next agent\n- Set \"agent_task\" to the specific task\n" ++
  "- Set \"sub_goal_id\" to which goal this addresses (e.g., 'goal_2', 'goal_3')\n" ++
  "- Set \"is_final\" to false\n\n" ++
  "FINAL STEP (Completion):\n- Set \"is_final\" to true when ALL sub-goals are complete\n" ++
  "- Set all other fields to null\n" ++
  "- Provide a comprehensive \"final_answer\" that combines all results\n\n" ++
  "Progress Tracking:\n" ++
  "- You will receive progress updates showing completed sub-goals with checkmarks\n" ++
  "- Use this to decide which sub-goal to work on next\n" ++
  "- When all sub-goals show [✓], provide the final answer\n\n" ++
  "CRITICAL: If the task is complex, prioritize the " ++ toString env.maxSubGoals ++
  " most important sub-goals.\n" ++
  "You can invoke the same agent multiple times if needed.\n" ++
  "Always consider previous agent results when deciding next steps.\n\n" ++
  "Respond with valid JSON only. No extra text."

/-- The mutable state of one `orchestrate` run at the top of the loop. -/
structure OrchState where
  step : Nat
  history : List ChatMessage
  allSteps : List AgentStep
  agentResults : List (String × String)
  agentResultsContext : List (String × Json)
  progress : TaskProgress

/-- Outcome of one loop iteration: continue, return a response, or crash
(decision-parse slice panic). -/
inductive OrchOutcome where
  | next (s : OrchState)
  | done (r : AgentResponse)
  | crash

/-- The urgency note of the supervisor loop (supervisor_agent.rs lines
678-686). -/
def supUrgencyMsg (remainingAfterThis : Nat) : String :=
  if remainingAfterThis ≤ 2 then
    "\n\nWARNING: Only " ++ toString remainingAfterThis ++
    " orchestration steps remaining! You must finalize the task soon or provide a final answer with the results you have."
  else
    "\n\nYou have " ++ toString remainingAfterThis ++ " orchestration steps remaining."

/-- The conversation/steps update after a handled agent invocation
(supervisor_agent.rs lines 662-706). -/
def orchestrateConversationUpdate (env : SupEnv) (maxOrchestrationSteps : Nat)
    (s : OrchState) (decision : SupervisorDecision)
    (agentName agentTask subGoalId resultSummary : String)
    (agentResults1 : List (String × String)) (context1 : List (String × Json))
    (progress4 : TaskProgress) : OrchState :=
  let assistantMsg := (env.serializeSup
    { thought := decision.thought, subGoals := none, agentToInvoke := some agentName,
      agentTask := some agentTask, subGoalId := some subGoalId, isFinal := false,
      finalAnswer := none }).getD ("Invoking " ++ agentName)
  let remainingAfterThis := maxOrchestrationSteps - s.step - 1
  { step := s.step + 1,
    history := s.history ++ [⟨"assistant", assistantMsg⟩,
      ⟨"user", "Agent '" ++ agentName ++ "' completed the task.\nResult: " ++
        resultSummary ++ supUrgencyMsg remainingAfterThis ++ "\n" ++
        progress4.detailedStatus ++
        "\n\nBased on this result and progress, what should happen next?\n" ++
        "IMPORTANT: If the next agent needs this result as input, you MUST copy the complete result data into the agent_task field!\n" ++
        "If all sub-goals are complete, set is_final=true and provide the final_answer."⟩],
    allSteps := s.allSteps ++ [⟨s.step, decision.thought,
      some (agentName ++ ":" ++ agentTask), some resultSummary⟩],
    agentResults := agentResults1,
    agentResultsContext := context1,
    progress := progress4 }

/-- The result handling of a (validation-passed) agent invocation
(supervisor_agent.rs lines 546-706): summary construction, completion
tracking, the all-complete short-circuit, and the conversation update. -/
def orchestrateHandleResponse (env : SupEnv) (maxOrchestrationSteps : Nat) (s : OrchState)
    (decision : SupervisorDecision) (agentName agentTask subGoalId : String)
    (progress3 : TaskProgress) (agentResponse : AgentResponse) : OrchOutcome :=
  match agentResponse with
  | .success result _ _ completionStatus =>
    let agentResults1 := s.agentResults ++ [(agentName, result)]
    let progress4 := progress3.markCompleted subGoalId result
    let resultValue := (env.parseJson result).getD (Json.str result)
    let context1 := insertC s.agentResultsContext (agentName ++ "_output") resultValue
    if progress4.isComplete ∧ ¬ progress4.subGoals.isEmpty then
      let finalAnswer := "Task completed successfully. All " ++
        toString progress4.subGoals.length ++ " sub-goals accomplished:\n\n" ++
        joinSep "\n\n" (progress4.subGoals.filterMap (fun g => g.result))
      .done (.success finalAnswer
        (s.allSteps ++ [⟨s.step,
          "Completed sub-goal '" ++ subGoalId ++ "': " ++ progress4.progressSummary,
          some (agentName ++ ":" ++ agentTask), some result⟩])
        none (some (.complete (49 / 50))))
    else
      let confidenceInfo :=
        match completionStatus with
        | some (.complete confidence) => " (confidence: " ++ fmtRat2 confidence ++ ")"
        | _ => ""
      let resultSummary := "SUCCESS" ++ confidenceInfo ++ ": " ++ result
      .next (orchestrateConversationUpdate env maxOrchestrationSteps s decision
        agentName agentTask subGoalId resultSummary agentResults1 context1 progress4)
  | .failure error _ _ completionStatus =>
    let progress4 := progress3.markFailed subGoalId error
    let recoverableInfo :=
      match completionStatus with
      | some (.failed _ recoverable) =>
        if recoverable then " (recoverable)" else " (not recoverable)"
      | _ => ""
    let resultSummary := "FAILED" ++ recoverableInfo ++ ": " ++ error
    .next (orchestrateConversationUpdate env maxOrchestrationSteps s decision
      agentName agentTask subGoalId resultSummary s.agentResults s.agentResultsContext
      progress4)
  | .timeout partialResult _ _ completionStatus =>
    let progress4 := progress3.markFailed subGoalId partialResult
    let progressInfo :=
      match completionStatus with
      | some (.partialStatus progress _) =>
        " (progress: " ++ fmtRat0 (progress * 100) ++ "%)"
      | _ => ""
    let resultSummary := "TIMEOUT" ++ progressInfo ++ ": " ++ partialResult
    .next (orchestrateConversationUpdate env maxOrchestrationSteps s decision
      agentName agentTask subGoalId resultSummary s.agentResults s.agentResultsContext
      progress4)

/-- The sub-goal declaration handling at the top of the loop body
(supervisor_agent.rs lines 297-325): register at most `max_sub_goals`
declared goals, in order. -/
def declaredProgress (env : SupEnv) (decision : SupervisorDecision) (p : TaskProgress) :
    TaskProgress :=
  match decision.subGoals with
  | some declarations =>
    (declarations.take env.maxSubGoals).foldl
      (fun q d => q.addSubGoal d.id d.description) p
  | none => p

/-- One iteration of the `for step in 0..max_orchestration_steps` body of
`SupervisorAgent::orchestrate` (supervisor_agent.rs lines 269-748). -/
def orchestrateStep (env : SupEnv) (maxOrchestrationSteps : Nat) (s : OrchState) :
    OrchOutcome :=
  match decideNextAction env s.history with
  | .error e =>
    .done (.failure ("Supervisor decision failed: " ++ e) s.allSteps none
      (some (.failed ("Supervisor reasoning failed: " ++ e) true)))
  | .ok none => .crash
  | .ok (some decision) =>
    let progress1 := declaredProgress env decision s.progress
    if ¬ decision.isFinal ∧ progress1.isComplete ∧ ¬ progress1.subGoals.isEmpty then
      let finalAnswer := "Task completed successfully. All sub-goals accomplished:\n" ++
        joinSep "\n" (progress1.subGoals.filterMap (fun g => g.result))
      .done (.success finalAnswer
        (s.allSteps ++ [⟨s.step, "All sub-goals complete: " ++ progress1.progressSummary,
          none, some finalAnswer⟩])
        none (some (.complete (19 / 20))))
    else if decision.isFinal then
      let finalAnswer := decision.finalAnswer.getD "Task completed without explicit answer"
      .done (.success finalAnswer
        (s.allSteps ++ [⟨s.step, decision.thought, none, some finalAnswer⟩])
        none (some (.complete 1)))
    else
      match decision.agentToInvoke, decision.agentTask with
      | some agentName, some agentTask =>
        let subGoalId := decision.subGoalId.getD ("goal_" ++ toString s.step)
        let progress2 :=
          if progress1.subGoals.any (fun g => g.id == subGoalId) then progress1
          else progress1.addSubGoal subGoalId agentTask
        let progress3 := progress2.markInProgress subGoalId agentName
        match lookupC env.agents agentName with
        | some _ =>
          let context :=
            if s.agentResultsContext.isEmpty then none
            else some (Json.obj s.agentResultsContext)
          let agentResponse := env.agentExec s.step agentName agentTask context
          let validationGate :=
            match env.handoff with
            | some coordinator =>
              some (validateHandoff env.rc env.parseJson coordinator
                (agentName ++ "_handoff") agentResponse)
            | none => none
          match validationGate with
          | some validation =>
            if ¬ validation.valid then
              let errList := validation.errors.map (fun e => e.field ++ ": " ++ e.message)
              let history1 := s.history ++ [⟨"user",
                "Agent '" ++ agentName ++ "' completed but validation FAILED:\n" ++
                joinSep "\n" (validation.errors.map (fun e =>
                  "  ✗ " ++ e.field ++ ": " ++ e.message)) ++
                "\n\nThe output does not meet quality standards. You should either:\n" ++
                "1. Retry with more specific instructions\n2. Try a different approach\n" ++
                "3. Mark this sub-goal as failed if unrecoverable"⟩]
              let allSteps1 := s.allSteps ++ [⟨s.step,
                "Agent '" ++ agentName ++ "' output validation failed",
                some (agentName ++ ":" ++ agentTask),
                some ("VALIDATION FAILED: " ++ joinSep ", " errList)⟩]
              .next ⟨s.step + 1, history1, allSteps1, s.agentResults,
                s.agentResultsContext,
                progress3.markFailed subGoalId ("Validation failed: " ++ joinSep ", " errList)⟩
            else
              orchestrateHandleResponse env maxOrchestrationSteps s decision
                agentName agentTask subGoalId progress3 agentResponse
          | none =>
            orchestrateHandleResponse env maxOrchestrationSteps s decision
              agentName agentTask subGoalId progress3 agentResponse
        | none =>
          let errorMsg := "Agent '" ++ agentName ++ "' not found"
          let history1 := s.history ++ [⟨"user", "Error: " ++ errorMsg⟩]
          let allSteps1 := s.allSteps ++
            [⟨s.step, decision.thought, some agentName, some errorMsg⟩]
          .next ⟨s.step + 1, history1, allSteps1, s.agentResults,
            s.agentResultsContext, progress3⟩
      | _, _ =>
        let warning := "Supervisor must either invoke an agent or mark task as final"
        let history1 := s.history ++ [⟨"user", warning ++
          "\nPlease either:\n1. Invoke an agent with a specific task, OR\n" ++
          "2. Set is_final=true if the task is complete"⟩]
        let allSteps1 := s.allSteps ++ [⟨s.step, decision.thought, none, some warning⟩]
        .next ⟨s.step + 1, history1, allSteps1, s.agentResults,
          s.agentResultsContext, progress1⟩

/-- The Timeout response after step exhaustion (supervisor_agent.rs lines
750-774). -/
def orchTimeoutResp (s : OrchState) : AgentResponse :=
  .timeout ("Supervisor reached max orchestration steps. " ++
    s.progress.progressSummary ++ "\nCompleted " ++ toString s.agentResults.length ++
    " agent invocations.")
    s.allSteps none
    (some (.partialStatus s.progress.progressPercentage
      ["Increase max_orchestration_steps",
       "Resume from: " ++ s.progress.detailedStatus]))

/-- The loop driver: `fuel = max_orchestration_steps - s.step`. -/
def orchestrateGo (env : SupEnv) (maxOrchestrationSteps : Nat) :
    Nat → OrchState → Option AgentResponse
  | 0, s => some (orchTimeoutResp s)
  | fuel + 1, s =>
    match orchestrateStep env maxOrchestrationSteps s with
    | .done r => some r
    | .crash => none
    | .next s1 => orchestrateGo env maxOrchestrationSteps fuel s1

/-- The initial state of `orchestrate` (supervisor_agent.rs lines
185-267). -/
def initOrchState (env : SupEnv) (task : String) (maxOrchestrationSteps : Nat) : OrchState :=
  { step := 0,
    history := [⟨"system", supervisorSystemPrompt env maxOrchestrationSteps⟩,
      ⟨"user", "Task: " ++ task⟩],
    allSteps := [], agentResults := [], agentResultsContext := [],
    progress := TaskProgress.new }

/-- `SupervisorAgent::orchestrate(task, max_orchestration_steps)`
(`none` models a crash of the run, see `decideNextAction`). -/
def orchestrate (env : SupEnv) (task : String) (maxOrchestrationSteps : Nat) :
    Option AgentResponse :=
  orchestrateGo env maxOrchestrationSteps maxOrchestrationSteps
    (initOrchState env task maxOrchestrationSteps)

/-! ## Claim C1: supervisor auto-completion -/

/-- First supervisor decision: declare two sub-goals and invoke agent `a`
on `g1`. -/
def declTwo : SupervisorDecision :=
  ⟨"plan", some [⟨"g1", "first"⟩, ⟨"g2", "second"⟩], some "a", some "t1", some "g1",
    false, none⟩

/-- Second supervisor decision: invoke agent `a` on `g2` (never final). -/
def invokeSecond : SupervisorDecision :=
  ⟨"continue", none, some "a", some "t2", some "g2", false, none⟩

/-- Scenario: an LLM that declares `g1`,`g2` and then keeps invoking `a`,
never emitting `is_final = true`; the agent succeeds with `r1`, then
`r2`.  -/
def envC1 (r1 r2 : String) : SupEnv :=
  { chat := fun h => if h.length == 2 then .ok "S0" else .ok "S1",
    parseSup := fun s =>
      if s = "S0" then some declTwo else if s = "S1" then some invokeSecond else none,
    serializeSup := fun _ => none,
    parseJson := fun _ => none,
    rc := fun _ => none,
    agents := [("a", "agent a")],
    agentExec := fun step _ _ _ =>
      if step == 0 then .success r1 [] none none else .success r2 [] none none,
    handoff := none,
    maxSubGoals := 5, maxIterations := 10 }

/-- C1: universal auto-completion.  (1) At the top of any loop iteration,
if the decision is not final and all declared sub-goals (at least one) are
Completed, the step returns Success with the answer synthesized from the
concatenation of the stored sub-goal results (supervisor_agent.rs lines
327-362).  (2) On any agent success whose `mark_completed` makes the
declared sub-goals complete, the step returns Success with the
concatenated results (lines 569-606).  (3) The driver turns a `.done`
outcome of the step into the return value of `orchestrate`.  (4) An
end-to-end instance: two declared sub-goals, an LLM that never emits
`is_final = true` (proved over all histories), both completed ⇒ Success
with the two stored results concatenated. -/
theorem supervisor_auto_completion :
    (∀ (env : SupEnv) (maxSteps : Nat) (s : OrchState) (decision : SupervisorDecision),
      decideNextAction env s.history = .ok (some decision) →
      decision.isFinal = false →
      (declaredProgress env decision s.progress).isComplete = true →
      (declaredProgress env decision s.progress).subGoals ≠ [] →
      orchestrateStep env maxSteps s = .done (.success
        ("Task completed successfully. All sub-goals accomplished:\n" ++
          joinSep "\n" ((declaredProgress env decision s.progress).subGoals.filterMap
            (fun g => g.result)))
        (s.allSteps ++ [⟨s.step,
          "All sub-goals complete: " ++ (declaredProgress env decision s.progress).progressSummary,
          none,
          some ("Task completed successfully. All sub-goals accomplished:\n" ++
            joinSep "\n" ((declaredProgress env decision s.progress).subGoals.filterMap
              (fun g => g.result)))⟩])
        none (some (.complete (19 / 20))))) ∧
    (∀ (env : SupEnv) (maxSteps : Nat) (s : OrchState) (decision : SupervisorDecision)
        (agentName agentTask subGoalId result : String) (steps : List AgentStep)
        (md : Option OutputMetadata) (cs : Option CompletionStatus)
        (progress3 : TaskProgress),
      (progress3.markCompleted subGoalId result).isComplete = true →
      (progress3.markCompleted subGoalId result).subGoals ≠ [] →
      orchestrateHandleResponse env maxSteps s decision agentName agentTask subGoalId
        progress3 (.success result steps md cs) =
        .done (.success
          ("Task completed successfully. All " ++
            toString (progress3.markCompleted subGoalId result).subGoals.length ++
            " sub-goals accomplished:\n\n" ++
            joinSep "\n\n" ((progress3.markCompleted subGoalId result).subGoals.filterMap
              (fun g => g.result)))
          (s.allSteps ++ [⟨s.step,
            "Completed sub-goal '" ++ subGoalId ++ "': " ++
              (progress3.markCompleted subGoalId result).progressSummary,
            some (agentName ++ ":" ++ agentTask), some result⟩])
          none (some (.complete (49 / 50))))) ∧
    (∀ (env : SupEnv) (maxSteps fuel : Nat) (s : OrchState) (r : AgentResponse),
      orchestrateStep env maxSteps s = .done r →
      orchestrateGo env maxSteps (fuel + 1) s = some r) ∧
    (∀ r1 r2 : String,
      ((orchestrate (envC1 r1 r2) "task" 5).map AgentResponse.isSuccess = some true) ∧
      ((orchestrate (envC1 r1 r2) "task" 5).map AgentResponse.primary =
        some ("Task completed successfully. All 2 sub-goals accomplished:\n\n" ++
          (r1 ++ "\n\n" ++ r2))) ∧
      (∀ h, (match decideNextAction (envC1 r1 r2) h with
        | .ok (some d) => d.isFinal
        | _ => false) = false)) := by
  refine ⟨?_, ?_, ?_, ?_⟩
  · intro env maxSteps s decision hdec hfin hcomp hne
    simp only [orchestrateStep, hdec]
    rw [if_pos ⟨by simp [hfin], by simp [hcomp], by simp [hne]⟩]
  · intro env maxSteps s decision agentName agentTask subGoalId result steps md cs
      progress3 hcomp hne
    simp only [orchestrateHandleResponse]
    rw [if_pos ⟨by simp [hcomp], by simp [hne]⟩]
  · intro env maxSteps fuel s r h
    simp only [orchestrateGo, h]
  · intro r1 r2
    refine ⟨rfl, ?_, ?_⟩
    · have h : (orchestrate (envC1 r1 r2) "task" 5).map AgentResponse.primary =
          some ("Task completed successfully. All " ++ toString (2 : Nat) ++
            " sub-goals accomplished:\n\n" ++ (r1 ++ "\n\n" ++ r2)) := rfl
      rw [h]
      have hpre : "Task completed successfully. All " ++ toString (2 : Nat) ++
          " sub-goals accomplished:\n\n" =
          "Task completed successfully. All 2 sub-goals accomplished:\n\n" := by decide
      rw [hpre]
    · intro h
      by_cases hl : h.length = 2 <;>
        simp [decideNextAction, envC1, hl, declTwo, invokeSecond]

/-- Witness for `supervisor_auto_completion`: a concrete state whose one
declared sub-goal is Completed and whose next decision is non-final
short-circuits to the synthesized Success. -/
theorem supervisor_auto_completion_witness :
    orchestrateStep (envC1 "r1" "r2") 5
      ⟨1, [], [], [], [], ⟨[⟨"g1", "d", .completed, none, some "r"⟩], 1, 0⟩⟩ =
      .done (.success "Task completed successfully. All sub-goals accomplished:\nr"
        [⟨1, "All sub-goals complete: Progress: 1/1 sub-goals completed (100%), 0 failed",
          none, some "Task completed successfully. All sub-goals accomplished:\nr"⟩]
        none (some (.complete (19 / 20)))) := by
  have h := supervisor_auto_completion.1 (envC1 "r1" "r2") 5
    ⟨1, [], [], [], [], ⟨[⟨"g1", "d", .completed, none, some "r"⟩], 1, 0⟩⟩
    invokeSecond rfl rfl rfl (by decide)
  exact h.trans (by with_unfolding_all rfl)

/-! ## Claim C2: the validation gate with a missing contract -/

/-- A supervisor decision declaring a single sub-goal `g1` and invoking
agent `a` on it. -/
def declOne : SupervisorDecision :=
  ⟨"plan", some [⟨"g1", "only"⟩], some "a", some "t1", some "g1", false, none⟩

/-- Scenario: coordinator `co` attached, one declared sub-goal, agent `a`
succeeds with `r`; no contract named `a_handoff` is registered. -/
def envC2 (co : HandoffCoordinator) (r : String) : SupEnv :=
  { chat := fun _ => .ok "S0",
    parseSup := fun s => if s = "S0" then some declOne else none,
    serializeSup := fun _ => none,
    parseJson := fun _ => none,
    rc := fun _ => none,
    agents := [("a", "agent a")],
    agentExec := fun _ _ _ _ => .success r [] none none,
    handoff := some co,
    maxSubGoals := 5, maxIterations := 10 }

/-- C2 counterexample: with a HandoffCoordinator attached and no contract
named `a_handoff` registered, the gate is NOT skipped: `validate_handoff`
returns a ContractNotFound failure, the sub-goal is marked Failed — not
Completed — and a validation-failure step is appended. -/
theorem missing_contract_marks_failed_counterexample :
    ∃ s1, orchestrateStep (envC2 HandoffCoordinator.new "ok") 5
        (initOrchState (envC2 HandoffCoordinator.new "ok") "task" 5) = .next s1 ∧
      s1.progress.subGoals.map SubGoal.status = [.failed] ∧
      s1.progress.subGoals.map SubGoal.status ≠ [.completed] ∧
      s1.allSteps.map AgentStep.observation =
        [some "VALIDATION FAILED: contract: Handoff contract 'a_handoff' not registered"] :=
  ⟨_, rfl, rfl, by decide, rfl⟩

/-- C2 amended: when no contract named `{agent}_handoff` is registered,
`validate_handoff` returns a ContractNotFound failure, so the supervisor
treats the (successful) agent response as a validation failure: the
sub-goal is marked Failed with the concatenated error message, a
validation-failure step is appended, and the loop continues.  Gating is
only skipped when no coordinator is attached at all. -/
theorem missing_contract_validation_failure (co : HandoffCoordinator)
    (hco : lookupC co.contracts "a_handoff" = none) :
    (∀ (rc : String → Option (String → Bool)) (pj : String → Option Json)
        (resp : AgentResponse),
      validateHandoff rc pj co "a_handoff" resp =
        ValidationResult.failure
          [{ field := "contract", errorType := "ContractNotFound",
             message := "Handoff contract 'a_handoff' not registered",
             expected := none, actual := none }]) ∧
    (∀ r : String, ∃ s1,
      orchestrateStep (envC2 HandoffCoordinator.new r) 5
        (initOrchState (envC2 HandoffCoordinator.new r) "task" 5) = .next s1 ∧
      s1.progress.subGoals =
        [⟨"g1", "only", .failed, some "a",
          some "Validation failed: contract: Handoff contract 'a_handoff' not registered"⟩] ∧
      s1.allSteps =
        [⟨0, "Agent 'a' output validation failed", some "a:t1",
          some "VALIDATION FAILED: contract: Handoff contract 'a_handoff' not registered"⟩] ∧
      s1.step = 1) := by
  constructor
  · intro rc pj resp
    simp [validateHandoff, hco]
  · intro r
    exact ⟨_, rfl, rfl, rfl, rfl⟩

/-- Witness for `missing_contract_validation_failure` on the empty
coordinator and a concrete response. -/
theorem missing_contract_validation_failure_witness :
    validateHandoff (fun _ => none) (fun _ => none) HandoffCoordinator.new "a_handoff"
      (.success "ok" [] none none) =
      ValidationResult.failure
        [{ field := "contract", errorType := "ContractNotFound",
           message := "Handoff contract 'a_handoff' not registered",
           expected := none, actual := none }] :=
  (missing_contract_validation_failure HandoffCoordinator.new rfl).1
    (fun _ => none) (fun _ => none) (.success "ok" [] none none)

/-! ## Claim C9: the TaskProgress counters -/

/-- Second supervisor decision of the C9 scenario: invoke agent `a` on
the *already completed* sub-goal `g1` again. -/
def invokeFirstAgain : SupervisorDecision :=
  ⟨"again", none, some "a", some "t2", some "g1", false, none⟩

/-- Scenario: two declared sub-goals, but the LLM routes both invocations
to `g1`, completing it twice while `g2` stays Pending. -/
def envC9 : SupEnv :=
  { chat := fun h => if h.length == 2 then .ok "S0" else .ok "S1",
    parseSup := fun s =>
      if s = "S0" then some declTwo else if s = "S1" then some invokeFirstAgain else none,
    serializeSup := fun _ => none,
    parseJson := fun _ => none,
    rc := fun _ => none,
    agents := [("a", "agent a")],
    agentExec := fun step _ _ _ =>
      if step == 0 then .success "r1" [] none none else .success "r2" [] none none,
    handoff := none,
    maxSubGoals := 5, maxIterations := 10 }

/-- The exact sequence of `TaskProgress` operations performed by the
`envC9` run of `orchestrate` (declare `g1`,`g2`; invoke/complete `g1`;
invoke/complete `g1` again). -/
def progressC9 : TaskProgress :=
  (((((TaskProgress.new.addSubGoal "g1" "first").addSubGoal "g2" "second").markInProgress
    "g1" "a").markCompleted "g1" "r1").markInProgress "g1" "a").markCompleted "g1" "r2"

/-- C9 counterexample: completing the same `sub_goal_id` twice makes
`completed_count = 2` while only one sub-goal is Completed (`g2` is still
Pending), `is_complete()` fires spuriously, and `orchestrate` returns
Success claiming all 2 sub-goals accomplished. -/
theorem task_progress_double_count_counterexample :
    (orchestrate envC9 "task" 5).map AgentResponse.isSuccess = some true ∧
    (orchestrate envC9 "task" 5).map AgentResponse.primary =
      some "Task completed successfully. All 2 sub-goals accomplished:\n\nr2" ∧
    progressC9.completedCount = 2 ∧
    (progressC9.subGoals.filter (fun g => g.status == SubGoalStatus.completed)).length = 1 ∧
    progressC9.isComplete = true ∧
    progressC9.subGoals.map SubGoal.status = [.completed, .pending] := by
  refine ⟨rfl, by decide, rfl, rfl, rfl, rfl⟩

/-- The invariant claimed by C9. -/
def progressInv (p : TaskProgress) : Prop :=
  p.completedCount =
    (p.subGoals.filter (fun g => g.status == SubGoalStatus.completed)).length ∧
  p.failedCount =
    (p.subGoals.filter (fun g => g.status == SubGoalStatus.failed)).length

/-- `markFirst` rewrites exactly one matching goal: filter counts change
by swapping that goal's contribution. -/
theorem markFirst_filter (q : SubGoal → Bool) (f : SubGoal → SubGoal) (id : String) :
    ∀ (goals goals' : List SubGoal), markFirst f id goals = some goals' →
      ∃ g, g ∈ goals ∧ g.id = id ∧
        (goals'.filter q).length + (if q g then 1 else 0) =
          (goals.filter q).length + (if q (f g) then 1 else 0) := by
  intro goals
  induction goals with
  | nil => intro goals' h; simp [markFirst] at h
  | cons g rest ih =>
    intro goals' h
    simp only [markFirst] at h
    by_cases hid : g.id = id
    · rw [if_pos hid] at h
      injection h with h
      subst h
      refine ⟨g, List.mem_cons_self _ _, hid, ?_⟩
      by_cases hq : q g <;> by_cases hqf : q (f g) <;>
        simp [List.filter_cons, hq, hqf]
    · rw [if_neg hid] at h
      cases hmf : markFirst f id rest with
      | none => rw [hmf] at h; simp at h
      | some tail1 =>
        rw [hmf] at h
        simp only [Option.map_some'] at h
        injection h with h
        subst h
        obtain ⟨g0, hmem, hid0, heq⟩ := ih tail1 hmf
        refine ⟨g0, List.mem_cons_of_mem _ hmem, hid0, ?_⟩
        by_cases hq : q g <;> simp [List.filter_cons, hq] <;> omega

/-- C9 amended: `completed_count`/`failed_count` count matching
`mark_completed`/`mark_failed` calls, not goals, so the claimed invariant
only holds as long as each mark hits a goal that is still Pending or
InProgress (it breaks when the same sub-goal is completed twice, see the
counterexample).  Under that discipline every `TaskProgress` operation
preserves the invariant. -/
theorem task_progress_invariant_single_completion :
    progressInv TaskProgress.new ∧
    (∀ (p : TaskProgress) (id desc : String), progressInv p →
      progressInv (p.addSubGoal id desc)) ∧
    (∀ (p : TaskProgress) (id agent : String), progressInv p →
      (∀ g ∈ p.subGoals, g.id = id →
        g.status = SubGoalStatus.pending ∨ g.status = SubGoalStatus.inProgress) →
      progressInv (p.markInProgress id agent)) ∧
    (∀ (p : TaskProgress) (id r : String), progressInv p →
      (∀ g ∈ p.subGoals, g.id = id →
        g.status = SubGoalStatus.pending ∨ g.status = SubGoalStatus.inProgress) →
      progressInv (p.markCompleted id r)) ∧
    (∀ (p : TaskProgress) (id e : String), progressInv p →
      (∀ g ∈ p.subGoals, g.id = id →
        g.status = SubGoalStatus.pending ∨ g.status = SubGoalStatus.inProgress) →
      progressInv (p.markFailed id e)) := by
  refine ⟨⟨rfl, rfl⟩, ?_, ?_, ?_, ?_⟩
  · rintro p id desc ⟨hc, hf⟩
    refine ⟨?_, ?_⟩ <;>
      simp [TaskProgress.addSubGoal, List.filter_append, hc, hf]
  · rintro p id agent ⟨hc, hf⟩ hstat
    unfold TaskProgress.markInProgress
    cases hmf : markFirst (fun g =>
        { g with status := .inProgress, assignedAgent := some agent }) id p.subGoals with
    | none => exact ⟨hc, hf⟩
    | some goals1 =>
      obtain ⟨g, hmem, hid, heqc⟩ :=
        markFirst_filter (fun g => g.status == SubGoalStatus.completed) _ id _ _ hmf
      obtain ⟨g2, hmem2, hid2, heqf⟩ :=
        markFirst_filter (fun g => g.status == SubGoalStatus.failed) _ id _ _ hmf
      have hgc : (g.status == SubGoalStatus.completed) = false := by
        rcases hstat g hmem hid with h | h <;> simp [h]
      have hgf : (g2.status == SubGoalStatus.failed) = false := by
        rcases hstat g2 hmem2 hid2 with h | h <;> simp [h]
      simp only [hgc, hgf, Bool.false_eq_true, if_false,
        show (SubGoalStatus.inProgress == SubGoalStatus.completed) = false from rfl,
        show (SubGoalStatus.inProgress == SubGoalStatus.failed) = false from rfl]
        at heqc heqf
      refine ⟨?_, ?_⟩
      · show p.completedCount =
          (goals1.filter (fun g => g.status == SubGoalStatus.completed)).length
        omega
      · show p.failedCount =
          (goals1.filter (fun g => g.status == SubGoalStatus.failed)).length
        omega
  · rintro p id r ⟨hc, hf⟩ hstat
    unfold TaskProgress.markCompleted
    cases hmf : markFirst (fun g =>
        { g with status := .completed, result := some r }) id p.subGoals with
    | none => exact ⟨hc, hf⟩
    | some goals1 =>
      obtain ⟨g, hmem, hid, heqc⟩ :=
        markFirst_filter (fun g => g.status == SubGoalStatus.completed) _ id _ _ hmf
      obtain ⟨g2, hmem2, hid2, heqf⟩ :=
        markFirst_filter (fun g => g.status == SubGoalStatus.failed) _ id _ _ hmf
      have hgc : (g.status == SubGoalStatus.completed) = false := by
        rcases hstat g hmem hid with h | h <;> simp [h]
      have hgf : (g2.status == SubGoalStatus.failed) = false := by
        rcases hstat g2 hmem2 hid2 with h | h <;> simp [h]
      simp only [hgc, hgf, Bool.false_eq_true, if_false, if_true,
        show (SubGoalStatus.completed == SubGoalStatus.completed) = true from rfl,
        show (SubGoalStatus.completed == SubGoalStatus.failed) = false from rfl]
        at heqc heqf
      refine ⟨?_, ?_⟩
      · show p.completedCount + 1 =
          (goals1.filter (fun g => g.status == SubGoalStatus.completed)).length
        omega
      · show p.failedCount =
          (goals1.filter (fun g => g.status == SubGoalStatus.failed)).length
        omega
  · rintro p id e ⟨hc, hf⟩ hstat
    unfold TaskProgress.markFailed
    cases hmf : markFirst (fun g =>
        { g with status := .failed, result := some e }) id p.subGoals with
    | none => exact ⟨hc, hf⟩
    | some goals1 =>
      obtain ⟨g, hmem, hid, heqc⟩ :=
        markFirst_filter (fun g => g.status == SubGoalStatus.completed) _ id _ _ hmf
      obtain ⟨g2, hmem2, hid2, heqf⟩ :=
        markFirst_filter (fun g => g.status == SubGoalStatus.failed) _ id _ _ hmf
      have hgc : (g.status == SubGoalStatus.completed) = false := by
        rcases hstat g hmem hid with h | h <;> simp [h]
      have hgf : (g2.status == SubGoalStatus.failed) = false := by
        rcases hstat g2 hmem2 hid2 with h | h <;> simp [h]
      simp only [hgc, hgf, Bool.false_eq_true, if_false, if_true,
        show (SubGoalStatus.failed == SubGoalStatus.completed) = false from rfl,
        show (SubGoalStatus.failed == SubGoalStatus.failed) = true from rfl]
        at heqc heqf
      refine ⟨?_, ?_⟩
      · show p.completedCount =
          (goals1.filter (fun g => g.status == SubGoalStatus.completed)).length
        omega
      · show p.failedCount + 1 =
          (goals1.filter (fun g => g.status == SubGoalStatus.failed)).length
        omega

/-- Witness for `task_progress_invariant_single_completion`: a concrete
single completion keeps the counters in sync. -/
theorem task_progress_invariant_single_completion_witness :
    progressInv ((TaskProgress.new.addSubGoal "g1" "d").markCompleted "g1" "r") :=
  task_progress_invariant_single_completion.2.2.2.1
    (TaskProgress.new.addSubGoal "g1" "d") "g1" "r" ⟨rfl, rfl⟩
    (by intro g hg hid; rcases List.mem_singleton.mp hg with rfl; exact Or.inl rfl)

end Actorus
